import Mathlib

/-!
Shallow embedding of the persistence layer of the recipes-elysia service
(class RecipeDatabase, backed by SQLite through bun:sqlite).

Modelling conventions:
* Identifiers produced by crypto.randomUUID() are modelled by a counter
  (DB.nextId): a freshly generated identifier is the current counter value,
  and the freshness assumption "random UUIDs do not collide with existing
  rows" is the decidable predicate IdsFresh.
* CURRENT_TIMESTAMP is modelled by DB.now (a fixed clock value for the
  duration of one call).
* Each SQL table is a list of row structures in rowid (insertion) order.
* Single INSERT / DELETE / UPDATE statements check the declared PRIMARY KEY,
  UNIQUE and FOREIGN KEY constraints (PRAGMA foreign_keys = ON is set in
  RecipeDatabase.init) and either produce the updated table or a SqlError.
* db.transaction(fn) semantics: if any statement inside fails, the whole
  unit of work is rolled back and the error is rethrown; an operation of
  type Except SqlError DB therefore returns the post-state only on success,
  and the caller keeps the unmodified pre-state on error.
* SQLite compares TEXT with the BINARY collation; string order is modelled
  by a code-point-wise lexicographic comparison on the character list, and
  LIKE with a %pattern% wildcard by a case-folded infix test.
-/

deriving instance DecidableEq for Except

namespace RecipesDB

/-- Row of the users table (id TEXT PRIMARY KEY, email UNIQUE). -/
structure UserRow where
  id : Nat
  name : String
  email : String
  password_hash : String
  created_at : Nat
  updated_at : Nat
deriving Repr, DecidableEq

/-- Row of the cuisines table (id TEXT PRIMARY KEY, name UNIQUE). -/
structure CuisineRow where
  id : Nat
  name : String
  description : Option String
  created_at : Nat
deriving Repr, DecidableEq

/-- Row of the ingredients table (id TEXT PRIMARY KEY, name UNIQUE). -/
structure IngredientRow where
  id : Nat
  name : String
deriving Repr, DecidableEq

/-- Row of the recipes table; author_id, created_by and updated_by are
foreign keys into users. -/
structure RecipeRow where
  id : Nat
  name : String
  description : String
  author_id : Nat
  created_at : Nat
  updated_at : Nat
  created_by : Nat
  updated_by : Nat
deriving Repr, DecidableEq

/-- Row of the recipe_cuisines association table; recipe_id cascades on
delete, cuisine_id does not; UNIQUE(recipe_id, cuisine_id). -/
structure RecipeCuisineRow where
  id : Nat
  recipe_id : Nat
  cuisine_id : Nat
deriving Repr, DecidableEq

/-- Row of the recipe_steps table; recipe_id cascades on delete;
UNIQUE(recipe_id, step_number). -/
structure RecipeStepRow where
  id : Nat
  recipe_id : Nat
  step_number : Nat
  instruction : String
deriving Repr, DecidableEq

/-- Row of the recipe_ingredients association table; recipe_id cascades on
delete, ingredient_id does not; UNIQUE(recipe_id, ingredient_id). -/
structure RecipeIngredientRow where
  id : Nat
  recipe_id : Nat
  ingredient_id : Nat
  quantity : Rat
  unit : String
deriving Repr, DecidableEq

/-- State of the SQLite database file plus the UUID-freshness counter and
the clock used for CURRENT_TIMESTAMP. -/
structure DB where
  users : List UserRow
  cuisines : List CuisineRow
  ingredients : List IngredientRow
  recipes : List RecipeRow
  recipe_cuisines : List RecipeCuisineRow
  recipe_steps : List RecipeStepRow
  recipe_ingredients : List RecipeIngredientRow
  nextId : Nat
  now : Nat
deriving Repr, DecidableEq

/-- Error kinds surfaced by SQLite; the source inspects error.code for
SQLITE_CONSTRAINT_UNIQUE, so uniqueness, primary-key and foreign-key
violations are kept distinct, and a failure to resolve a column name when
preparing a statement is noSuchColumn. -/
inductive SqlError where
  | constraintUnique : SqlError
  | constraintPrimaryKey : SqlError
  | constraintForeignKey : SqlError
  | noSuchColumn : String → SqlError
deriving Repr, DecidableEq

/-- Model of crypto.randomUUID(): return the counter value as the fresh
identifier and advance the counter. -/
def genId (db : DB) : Nat × DB :=
  (db.nextId, { db with nextId := db.nextId + 1 })

/-- JavaScript truthiness of an optional string: undefined and the empty
string are falsy. -/
def strTruthy : Option String → Bool
  | none => false
  | some s => !(s == "")

/-- Code-point-wise lexicographic order on character lists (the BINARY
collation SQLite applies to TEXT). -/
def charListLe : List Char → List Char → Bool
  | [], _ => true
  | _ :: _, [] => false
  | a :: as, b :: bs => if a = b then charListLe as bs else decide (a < b)

/-- String order used by ORDER BY on TEXT columns. -/
def strLe (a b : String) : Bool :=
  charListLe a.toList b.toList

/-- Decidable test that the first character list is a prefix of the
second. -/
def charListPrefixOf : List Char → List Char → Bool
  | [], _ => true
  | _ :: _, [] => false
  | a :: as, b :: bs => a == b && charListPrefixOf as bs

/-- Decidable test that the first character list occurs contiguously inside
the second. -/
def charListInfixOf (p : List Char) : List Char → Bool
  | [] => charListPrefixOf p []
  | c :: cs => charListPrefixOf p (c :: cs) || charListInfixOf p cs

/-- Semantics of (column LIKE ?) with parameter %pat%: case-insensitive
containment of pat in s. -/
def likeContains (s pat : String) : Bool :=
  charListInfixOf (pat.toList.map Char.toLower) (s.toList.map Char.toLower)

/-- INSERT INTO ingredients (id, name): checks the primary key on id and
the UNIQUE constraint on name. -/
def insertIngredientRow (db : DB) (row : IngredientRow) : Except SqlError DB :=
  if db.ingredients.any (fun t => t.id == row.id) then
    .error .constraintPrimaryKey
  else if db.ingredients.any (fun t => t.name == row.name) then
    .error .constraintUnique
  else
    .ok { db with ingredients := db.ingredients ++ [row] }

/-- INSERT INTO recipes: checks the primary key on id and the three foreign
keys into users. -/
def insertRecipeRow (db : DB) (row : RecipeRow) : Except SqlError DB :=
  if db.recipes.any (fun t => t.id == row.id) then
    .error .constraintPrimaryKey
  else if !(db.users.any (fun t => t.id == row.author_id)) then
    .error .constraintForeignKey
  else if !(db.users.any (fun t => t.id == row.created_by)) then
    .error .constraintForeignKey
  else if !(db.users.any (fun t => t.id == row.updated_by)) then
    .error .constraintForeignKey
  else
    .ok { db with recipes := db.recipes ++ [row] }

/-- INSERT INTO recipe_cuisines: primary key, both foreign keys, and
UNIQUE(recipe_id, cuisine_id). -/
def insertRecipeCuisineRow (db : DB) (row : RecipeCuisineRow) : Except SqlError DB :=
  if db.recipe_cuisines.any (fun t => t.id == row.id) then
    .error .constraintPrimaryKey
  else if !(db.recipes.any (fun t => t.id == row.recipe_id)) then
    .error .constraintForeignKey
  else if !(db.cuisines.any (fun t => t.id == row.cuisine_id)) then
    .error .constraintForeignKey
  else if db.recipe_cuisines.any
      (fun t => t.recipe_id == row.recipe_id && t.cuisine_id == row.cuisine_id) then
    .error .constraintUnique
  else
    .ok { db with recipe_cuisines := db.recipe_cuisines ++ [row] }

/-- INSERT INTO recipe_steps: primary key, foreign key into recipes, and
UNIQUE(recipe_id, step_number). -/
def insertRecipeStepRow (db : DB) (row : RecipeStepRow) : Except SqlError DB :=
  if db.recipe_steps.any (fun t => t.id == row.id) then
    .error .constraintPrimaryKey
  else if !(db.recipes.any (fun t => t.id == row.recipe_id)) then
    .error .constraintForeignKey
  else if db.recipe_steps.any
      (fun t => t.recipe_id == row.recipe_id && t.step_number == row.step_number) then
    .error .constraintUnique
  else
    .ok { db with recipe_steps := db.recipe_steps ++ [row] }

/-- INSERT INTO recipe_ingredients: primary key, both foreign keys, and
UNIQUE(recipe_id, ingredient_id). -/
def insertRecipeIngredientRow (db : DB) (row : RecipeIngredientRow) : Except SqlError DB :=
  if db.recipe_ingredients.any (fun t => t.id == row.id) then
    .error .constraintPrimaryKey
  else if !(db.recipes.any (fun t => t.id == row.recipe_id)) then
    .error .constraintForeignKey
  else if !(db.ingredients.any (fun t => t.id == row.ingredient_id)) then
    .error .constraintForeignKey
  else if db.recipe_ingredients.any
      (fun t => t.recipe_id == row.recipe_id && t.ingredient_id == row.ingredient_id) then
    .error .constraintUnique
  else
    .ok { db with recipe_ingredients := db.recipe_ingredients ++ [row] }

/-- SELECT * FROM ingredients WHERE name = ? followed by .get: the first
matching row in rowid order. -/
def getIngredientByName (db : DB) (name : String) : Option IngredientRow :=
  db.ingredients.find? (fun t => t.name == name)

/-- RecipeDatabase.createIngredient: generate an id and insert the row,
surfacing any constraint violation. -/
def createIngredient (db : DB) (name : String) : Except SqlError (Nat × DB) :=
  let (id, db1) := genId db
  match insertIngredientRow db1 { id := id, name := name } with
  | .ok db2 => .ok (id, db2)
  | .error e => .error e

/-- RecipeDatabase.getOrCreateIngredient: look the name up; if absent,
insert a fresh row and return its id; if present, return the stored id. -/
def getOrCreateIngredient (db : DB) (name : String) : Except SqlError (Nat × DB) :=
  match db.ingredients.find? (fun t => t.name == name) with
  | some ing => .ok (ing.id, db)
  | none =>
    let (id, db1) := genId db
    match insertIngredientRow db1 { id := id, name := name } with
    | .ok db2 => .ok (id, db2)
    | .error e => .error e

/-- RecipeDatabase.getOrCreateIngredientSync has the same body as the
asynchronous variant. -/
def getOrCreateIngredientSync (db : DB) (name : String) : Except SqlError (Nat × DB) :=
  getOrCreateIngredient db name

/-- Ingredient entry accepted by createRecipe: quantity and unit are
optional there and are defaulted (quantity || 0, unit || two quotes). -/
structure CreateIngredientInput where
  name : String
  quantity : Option Rat
  unit : Option String
deriving Repr, DecidableEq

/-- Step entry: a caller-chosen step number and an instruction. -/
structure StepInput where
  step_number : Nat
  instruction : String
deriving Repr, DecidableEq

/-- Argument record of RecipeDatabase.createRecipe. -/
structure CreateRecipeInput where
  name : String
  description : String
  author_id : Option Nat := none
  created_by : Option Nat := none
  updated_by : Option Nat := none
  cuisines : Option (List Nat) := none
  ingredients : Option (List CreateIngredientInput) := none
  steps : Option (List StepInput) := none
deriving Repr, DecidableEq

/-- Loop of createRecipe and updateRecipe over cuisine ids: generate an
association row id and insert, aborting on the first constraint
violation. -/
def insertRecipeCuisines (recipeId : Nat) : DB → List Nat → Except SqlError DB
  | db, [] => .ok db
  | db, cuisineId :: rest =>
    let (rowId, db1) := genId db
    match insertRecipeCuisineRow db1
        { id := rowId, recipe_id := recipeId, cuisine_id := cuisineId } with
    | .ok db2 => insertRecipeCuisines recipeId db2 rest
    | .error e => .error e

/-- Loop of createRecipe and updateRecipe over step entries. -/
def insertRecipeSteps (recipeId : Nat) : DB → List StepInput → Except SqlError DB
  | db, [] => .ok db
  | db, s :: rest =>
    let (rowId, db1) := genId db
    match insertRecipeStepRow db1
        { id := rowId, recipe_id := recipeId, step_number := s.step_number,
          instruction := s.instruction } with
    | .ok db2 => insertRecipeSteps recipeId db2 rest
    | .error e => .error e

/-- Ingredient resolution inside createRecipe: try createIngredient first;
on SQLITE_CONSTRAINT_UNIQUE fall back to a lookup by name; rethrow every
other error, and rethrow the unique violation when the lookup finds
nothing. -/
def createRecipeResolveIngredient (db : DB) (name : String) : Except SqlError (Nat × DB) :=
  match createIngredient db name with
  | .ok r => .ok r
  | .error .constraintUnique =>
    match getIngredientByName db name with
    | some existing => .ok (existing.id, db)
    | none => .error .constraintUnique
  | .error e => .error e

/-- Loop of createRecipe over ingredient entries: resolve the name, then
insert the association row with the defaulted quantity and unit. -/
def createRecipeInsertIngredients (recipeId : Nat) :
    DB → List CreateIngredientInput → Except SqlError DB
  | db, [] => .ok db
  | db, ing :: rest =>
    match createRecipeResolveIngredient db ing.name with
    | .error e => .error e
    | .ok (ingredientId, db1) =>
      let (rowId, db2) := genId db1
      match insertRecipeIngredientRow db2
          { id := rowId, recipe_id := recipeId, ingredient_id := ingredientId,
            quantity := ing.quantity.getD 0, unit := ing.unit.getD "" } with
      | .ok db3 => createRecipeInsertIngredients recipeId db3 rest
      | .error e => .error e

/-- Cuisine block of createRecipe: runs only when a non-empty cuisine list
is supplied (the source checks cuisines && cuisines.length > 0). -/
def createCuisinesStage (rid : Nat) (r : CreateRecipeInput) (db : DB) : Except SqlError DB :=
  match r.cuisines with
  | some cs => if cs.length > 0 then insertRecipeCuisines rid db cs else .ok db
  | none => .ok db

/-- Ingredient block of createRecipe. -/
def createIngredientsStage (rid : Nat) (r : CreateRecipeInput) (db : DB) : Except SqlError DB :=
  match r.ingredients with
  | some ings =>
    if ings.length > 0 then createRecipeInsertIngredients rid db ings else .ok db
  | none => .ok db

/-- Step block of createRecipe. -/
def createStepsStage (rid : Nat) (r : CreateRecipeInput) (db : DB) : Except SqlError DB :=
  match r.steps with
  | some ss => if ss.length > 0 then insertRecipeSteps rid db ss else .ok db
  | none => .ok db

/-- RecipeDatabase.createRecipe: generate the recipe id, default the author
to a fresh identifier when absent and created_by/updated_by to the author,
then run the recipe insert and the three blocks inside one transaction.
On any error the transaction is rolled back: the caller keeps the
unmodified pre-state and sees the error. -/
def createRecipe (db0 : DB) (r : CreateRecipeInput) : Except SqlError (Nat × DB) := do
  let (id, db1) := genId db0
  let (authorId, db2) :=
    match r.author_id with
    | some a => (a, db1)
    | none => genId db1
  let createdBy := r.created_by.getD authorId
  let updatedBy := r.updated_by.getD authorId
  let db3 ← insertRecipeRow db2
    { id := id, name := r.name, description := r.description, author_id := authorId,
      created_at := db2.now, updated_at := db2.now,
      created_by := createdBy, updated_by := updatedBy }
  let db4 ← createCuisinesStage id r db3
  let db5 ← createIngredientsStage id r db4
  let db6 ← createStepsStage id r db5
  return (id, db6)

/-- Database state visible after a createRecipe call: the new state on
success, the rolled-back original state on error. -/
def dbAfterCreate (db : DB) (r : CreateRecipeInput) : DB :=
  match createRecipe db r with
  | .ok (_, db2) => db2
  | .error _ => db

/-- Ingredient entry accepted by updateRecipe (Partial of
CreateRecipeRequest, where quantity and unit are required). -/
structure UpdateIngredientInput where
  name : String
  quantity : Rat
  unit : String
deriving Repr, DecidableEq

/-- Partial field set accepted by updateRecipe. -/
structure UpdateRecipeInput where
  name : Option String := none
  description : Option String := none
  cuisines : Option (List Nat) := none
  ingredients : Option (List UpdateIngredientInput) := none
  steps : Option (List StepInput) := none
deriving Repr, DecidableEq

/-- Loop of updateRecipe over ingredient entries: resolve through
getOrCreateIngredientSync, then insert the association row. -/
def updateRecipeInsertIngredients (recipeId : Nat) :
    DB → List UpdateIngredientInput → Except SqlError DB
  | db, [] => .ok db
  | db, ing :: rest =>
    match getOrCreateIngredientSync db ing.name with
    | .error e => .error e
    | .ok (ingredientId, db1) =>
      let (rowId, db2) := genId db1
      match insertRecipeIngredientRow db2
          { id := rowId, recipe_id := recipeId, ingredient_id := ingredientId,
            quantity := ing.quantity, unit := ing.unit } with
      | .ok db3 => updateRecipeInsertIngredients recipeId db3 rest
      | .error e => .error e

/-- Scalar part of updateRecipe. The statement runs only when name or
description is truthy (JavaScript: undefined and the empty string are
falsy); it COALESCEs the two fields and always stamps updated_by and
updated_at on the matched row. Setting updated_by is checked against the
foreign key into users when a row is actually updated. -/
def updateRecipeScalars (db : DB) (id : Nat) (d : UpdateRecipeInput) (userId : Nat) :
    Except SqlError DB :=
  if strTruthy d.name || strTruthy d.description then
    if db.recipes.any (fun t => t.id == id) && !(db.users.any (fun t => t.id == userId)) then
      .error .constraintForeignKey
    else
      .ok { db with recipes := db.recipes.map (fun t =>
        if t.id == id then
          { t with
            name := match d.name with
                    | some n => if n == "" then t.name else n
                    | none => t.name,
            description := match d.description with
                           | some s => if s == "" then t.description else s
                           | none => t.description,
            updated_by := userId,
            updated_at := db.now }
        else t) }
  else
    .ok db

/-- Cuisine block of updateRecipe: when cuisines is supplied (an empty
supplied array is truthy in JavaScript and still triggers the block),
delete every association of the recipe and reinsert the supplied set. -/
def updCuisinesStage (id : Nat) (d : UpdateRecipeInput) (db : DB) : Except SqlError DB :=
  match d.cuisines with
  | some cs =>
    insertRecipeCuisines id
      { db with recipe_cuisines := db.recipe_cuisines.filter (fun t => !(t.recipe_id == id)) }
      cs
  | none => .ok db

/-- Step block of updateRecipe: wholesale replacement of recipe_steps. -/
def updStepsStage (id : Nat) (d : UpdateRecipeInput) (db : DB) : Except SqlError DB :=
  match d.steps with
  | some ss =>
    insertRecipeSteps id
      { db with recipe_steps := db.recipe_steps.filter (fun t => !(t.recipe_id == id)) }
      ss
  | none => .ok db

/-- Ingredient block of updateRecipe: wholesale replacement of
recipe_ingredients, re-resolving each name through the catalog. -/
def updIngredientsStage (id : Nat) (d : UpdateRecipeInput) (db : DB) : Except SqlError DB :=
  match d.ingredients with
  | some ings =>
    updateRecipeInsertIngredients id
      { db with
        recipe_ingredients := db.recipe_ingredients.filter (fun t => !(t.recipe_id == id)) }
      ings
  | none => .ok db

/-- RecipeDatabase.updateRecipe: inside one transaction, update the scalar
fields when supplied, then run the cuisine, step and ingredient
replacement blocks in the order of the source. On any error the
transaction is rolled back. -/
def updateRecipe (db0 : DB) (id : Nat) (d : UpdateRecipeInput) (userId : Nat) :
    Except SqlError DB := do
  let db1 ← updateRecipeScalars db0 id d userId
  let db2 ← updCuisinesStage id d db1
  let db3 ← updStepsStage id d db2
  updIngredientsStage id d db3

/-- Database state visible after an updateRecipe call: the new state on
success, the rolled-back original state on error. -/
def dbAfterUpdate (db : DB) (id : Nat) (d : UpdateRecipeInput) (userId : Nat) : DB :=
  match updateRecipe db id d userId with
  | .ok db2 => db2
  | .error _ => db

/-- RecipeDatabase.archiveRecipe: DELETE FROM recipes WHERE id = ?; the
three child tables declare ON DELETE CASCADE on recipe_id, so deleting a
recipe row removes exactly the child rows referencing it. When no recipe
row matches, the statement deletes nothing and no cascade fires. -/
def archiveRecipe (db : DB) (id : Nat) : DB :=
  if db.recipes.any (fun t => t.id == id) then
    { db with
      recipes := db.recipes.filter (fun t => !(t.id == id)),
      recipe_cuisines := db.recipe_cuisines.filter (fun t => !(t.recipe_id == id)),
      recipe_steps := db.recipe_steps.filter (fun t => !(t.recipe_id == id)),
      recipe_ingredients := db.recipe_ingredients.filter (fun t => !(t.recipe_id == id)) }
  else
    db

/-- RecipeDatabase.deleteCuisine: DELETE FROM cuisines WHERE id = ?.
The foreign key recipe_cuisines.cuisine_id has no ON DELETE action, so
deleting a cuisine row that is still referenced by an association row
fails with a foreign-key violation and the statement changes nothing. -/
def deleteCuisine (db : DB) (id : Nat) : Except SqlError DB :=
  if db.cuisines.any (fun t => t.id == id)
      && db.recipe_cuisines.any (fun t => t.cuisine_id == id) then
    .error .constraintForeignKey
  else
    .ok { db with cuisines := db.cuisines.filter (fun t => !(t.id == id)) }

/-- Database state visible after a deleteCuisine call. -/
def dbAfterDeleteCuisine (db : DB) (id : Nat) : DB :=
  match deleteCuisine db id with
  | .ok db2 => db2
  | .error _ => db

/-- RecipeDatabase.getCuisines: SELECT * FROM cuisines ORDER BY name. -/
def getCuisines (db : DB) : List CuisineRow :=
  db.cuisines.mergeSort (fun a b => strLe a.name b.name)

/-- RecipeDatabase.getCuisineById. -/
def getCuisineById (db : DB) (id : Nat) : Option CuisineRow :=
  db.cuisines.find? (fun t => t.id == id)

/-- Ingredient association joined with its resolved ingredient name, as
returned by getRecipeById. -/
structure RecipeIngredientDetail where
  row : RecipeIngredientRow
  ingredient_name : String
deriving Repr, DecidableEq

/-- Aggregate returned by getRecipeById: the recipe row, its cuisines, its
steps ordered by step_number, and its ingredient associations each joined
with the ingredient name. -/
structure RecipeAggregate where
  recipe : RecipeRow
  cuisines : List CuisineRow
  steps : List RecipeStepRow
  ingredients : List RecipeIngredientDetail
deriving Repr, DecidableEq

/-- RecipeDatabase.getRecipeById: none when no recipe row matches;
otherwise the root row (the author join only adds a display name, which is
not modelled) with its three nested collections, the steps ordered by
step_number and the two joins dropping associations whose partner row is
missing (inner joins). -/
def getRecipeById (db : DB) (id : Nat) : Option RecipeAggregate :=
  match db.recipes.find? (fun t => t.id == id) with
  | none => none
  | some r =>
    some
      { recipe := r,
        cuisines := (db.recipe_cuisines.filter (fun t => t.recipe_id == id)).filterMap
          (fun rc => db.cuisines.find? (fun c => c.id == rc.cuisine_id)),
        steps := (db.recipe_steps.filter (fun t => t.recipe_id == id)).mergeSort
          (fun a b => Nat.ble a.step_number b.step_number),
        ingredients := (db.recipe_ingredients.filter (fun t => t.recipe_id == id)).filterMap
          (fun ri => (db.ingredients.find? (fun i => i.id == ri.ingredient_id)).map
            (fun i => { row := ri, ingredient_name := i.name })) }

/-- Sort keys accepted by the recipe filter schema. -/
inductive SortBy where
  | name : SortBy
  | created_at : SortBy
  | updated_at : SortBy
  | author : SortBy
deriving Repr, DecidableEq

/-- Sort directions accepted by the recipe filter schema. -/
inductive SortOrder where
  | asc : SortOrder
  | desc : SortOrder
deriving Repr, DecidableEq

/-- Validated query parameters of getRecipes (recipeFilterSchema). -/
structure RecipeFilter where
  page : Option Nat := none
  limit : Option Nat := none
  sortBy : Option SortBy := none
  sortOrder : Option SortOrder := none
  cuisines : Option (List Nat) := none
  author_id : Option Nat := none
  search : Option String := none
deriving Repr, DecidableEq

/-- Column name interpolated into ORDER BY r.{sortBy}. -/
def sortByColumn : SortBy → String
  | .name => "name"
  | .created_at => "created_at"
  | .updated_at => "updated_at"
  | .author => "author"

/-- Columns of the recipes table as declared by CREATE TABLE recipes.
There is no author column: the table stores author_id. -/
def recipesTableColumns : List String :=
  ["id", "name", "description", "author_id", "created_at", "updated_at",
   "created_by", "updated_by"]

/-- Row order produced by ORDER BY r.{column} ASC for the three sort keys
that name real columns. The author case is never consulted: getRecipes
fails while preparing the statement because recipes has no author
column. -/
def recipeKeyLe : SortBy → RecipeRow → RecipeRow → Bool
  | .name, a, b => strLe a.name b.name
  | .created_at, a, b => Nat.ble a.created_at b.created_at
  | .updated_at, a, b => Nat.ble a.updated_at b.updated_at
  | .author, _, _ => true

/-- WHERE predicate composed by getRecipes: author filter AND cuisine
filter (the recipe appears in recipe_cuisines with one of the given
cuisine ids) AND search filter (case-insensitive containment in the recipe
name, the description, or an associated ingredient name). An absent
author_id or search, an empty search string, and an empty cuisine list add
no clause. -/
def matchesFilter (db : DB) (f : RecipeFilter) (r : RecipeRow) : Bool :=
  (match f.author_id with
   | some a => r.author_id == a
   | none => true)
  && (let cs := f.cuisines.getD []
      if cs.length > 0 then
        db.recipe_cuisines.any (fun rc => rc.recipe_id == r.id && cs.any (fun c => c == rc.cuisine_id))
      else true)
  && (match f.search with
      | some s =>
        if s == "" then true
        else
          likeContains r.name s || likeContains r.description s ||
          db.recipe_ingredients.any (fun ri => ri.recipe_id == r.id &&
            db.ingredients.any (fun i => i.id == ri.ingredient_id && likeContains i.name s))
      | none => true)

/-- Result of getRecipes: one page of rows plus the total matching count. -/
structure RecipesPage where
  recipes : List RecipeRow
  total : Nat
deriving Repr, DecidableEq

/-- RecipeDatabase.getRecipes. The count query computes
COUNT(DISTINCT r.id) over the WHERE predicate with no pagination. The row
query groups by the primary key r.id (one output row per matching recipe;
the projection additionally carries the author name and the concatenated
cuisine names, which are not modelled), orders by r.{sortBy} {sortOrder},
and applies LIMIT ? OFFSET (page - 1) * limit. Preparing the row query
fails when the interpolated sort column does not exist in the recipes
table, which is the case for the author sort key. -/
def getRecipes (db : DB) (f : RecipeFilter) : Except SqlError RecipesPage :=
  let page := f.page.getD 1
  let limit := f.limit.getD 20
  let sb := f.sortBy.getD .created_at
  let so := f.sortOrder.getD .desc
  let hits := db.recipes.filter (matchesFilter db f)
  let total := ((hits.map (fun t => t.id)).dedup).length
  if recipesTableColumns.contains (sortByColumn sb) then
    let le := fun a b =>
      match so with
      | .asc => recipeKeyLe sb a b
      | .desc => recipeKeyLe sb b a
    .ok { recipes := ((hits.mergeSort le).drop ((page - 1) * limit)).take limit,
          total := total }
  else
    .error (.noSuchColumn (sortByColumn sb))

/-- RecipeDatabase.getRecipesByCuisine: getRecipes with the cuisine filter
overridden to the single given id, returning only the rows. -/
def getRecipesByCuisine (db : DB) (cuisineId : Nat) (f : RecipeFilter) :
    Except SqlError (List RecipeRow) :=
  match getRecipes db { f with cuisines := some [cuisineId] } with
  | .ok p => .ok p.recipes
  | .error e => .error e

/-- Row of the grouped-by-cuisine view: cuisine id and name, the recipe
count, and the flattened (id, name, description) list parsed back from the
concatenated JSON objects. -/
structure GroupedRow where
  cuisine_id : Nat
  cuisine_name : String
  recipe_count : Nat
  recipes : List (Nat × String × String)
deriving Repr, DecidableEq

/-- Join rows of one cuisine in the grouped-by-cuisine query: its
association rows resolved to recipe rows, dropping dangling associations
(WHERE r.id IS NOT NULL). -/
def cuisineJoinedRecipes (db : DB) (c : CuisineRow) : List RecipeRow :=
  (db.recipe_cuisines.filter (fun rc => rc.cuisine_id == c.id)).filterMap
    (fun rc => db.recipes.find? (fun r => r.id == rc.recipe_id))

/-- RecipeDatabase.getRecipesGroupedByCuisine: LEFT JOIN cuisines to
recipe_cuisines to recipes, keep only rows with an existing recipe
(WHERE r.id IS NOT NULL), group by the cuisine primary key, order by
cuisine name ascending. A cuisine whose join yields no recipe row
contributes no group; COUNT(r.id) counts the join rows of the group and
GROUP_CONCAT(JSON_OBJECT(...)) flattens them to (id, name, description). -/
def getRecipesGroupedByCuisine (db : DB) : List GroupedRow :=
  (db.cuisines.mergeSort (fun a b => strLe a.name b.name)).filterMap (fun c =>
    if (cuisineJoinedRecipes db c).isEmpty then none
    else some
      { cuisine_id := c.id, cuisine_name := c.name,
        recipe_count := (cuisineJoinedRecipes db c).length,
        recipes := (cuisineJoinedRecipes db c).map (fun r => (r.id, r.name, r.description)) })

/-- Freshness of the UUID counter: every identifier stored anywhere in the
database is below nextId, so a freshly generated identifier collides with
nothing. This models the collision-freeness of crypto.randomUUID(). -/
def IdsFresh (db : DB) : Prop :=
  (∀ u ∈ db.users, u.id < db.nextId) ∧
  (∀ c ∈ db.cuisines, c.id < db.nextId) ∧
  (∀ i ∈ db.ingredients, i.id < db.nextId) ∧
  (∀ r ∈ db.recipes, r.id < db.nextId) ∧
  (∀ rc ∈ db.recipe_cuisines, rc.id < db.nextId ∧ rc.recipe_id < db.nextId) ∧
  (∀ s ∈ db.recipe_steps, s.id < db.nextId ∧ s.recipe_id < db.nextId) ∧
  (∀ ri ∈ db.recipe_ingredients, ri.id < db.nextId ∧ ri.recipe_id < db.nextId)

instance (db : DB) : Decidable (IdsFresh db) := by
  unfold IdsFresh; infer_instance

/-- Foreign-key integrity of the three child tables on recipe_id, enforced
by SQLite with PRAGMA foreign_keys = ON. -/
def ChildFksOk (db : DB) : Prop :=
  (∀ rc ∈ db.recipe_cuisines, ∃ r ∈ db.recipes, r.id = rc.recipe_id) ∧
  (∀ s ∈ db.recipe_steps, ∃ r ∈ db.recipes, r.id = s.recipe_id) ∧
  (∀ ri ∈ db.recipe_ingredients, ∃ r ∈ db.recipes, r.id = ri.recipe_id)

instance (db : DB) : Decidable (ChildFksOk db) := by
  unfold ChildFksOk; infer_instance

/-- Foreign-key integrity of recipe_cuisines.cuisine_id into cuisines. -/
def CuisineFkOk (db : DB) : Prop :=
  ∀ rc ∈ db.recipe_cuisines, ∃ c ∈ db.cuisines, c.id = rc.cuisine_id

instance (db : DB) : Decidable (CuisineFkOk db) := by
  unfold CuisineFkOk; infer_instance

/-- Uniqueness invariant UNIQUE(recipe_id, cuisine_id) of the
recipe_cuisines table. -/
def AssocUnique (db : DB) : Prop :=
  db.recipe_cuisines.Pairwise (fun a b => a.recipe_id ≠ b.recipe_id ∨ a.cuisine_id ≠ b.cuisine_id)

instance (db : DB) : Decidable (AssocUnique db) := by
  unfold AssocUnique; infer_instance

/-- Invariants of the ingredients catalog maintained by SQLite: the primary
key makes identifiers pairwise distinct, and generated identifiers are
fresh. -/
def IngredientsOk (db : DB) : Prop :=
  (db.ingredients.map (fun t => t.id)).Nodup ∧ ∀ t ∈ db.ingredients, t.id < db.nextId

instance (db : DB) : Decidable (IngredientsOk db) := by
  unfold IngredientsOk; infer_instance

/-- Resolution of an ingredient identifier back to its catalog name, as
performed by the joins in getRecipeById and the search filter. -/
def lookupIngredientName (db : DB) (iid : Nat) : Option String :=
  (db.ingredients.find? (fun t => t.id == iid)).map (fun t => t.name)

/-- Step data of one recipe in table order, projected to the caller-visible
(step_number, instruction) pairs. -/
def stepsDataOf (db : DB) (rid : Nat) : List (Nat × String) :=
  (db.recipe_steps.filter (fun t => t.recipe_id == rid)).map
    (fun t => (t.step_number, t.instruction))

/-- Cuisine ids associated with one recipe, in table order. -/
def cuisineIdsOf (db : DB) (rid : Nat) : List Nat :=
  (db.recipe_cuisines.filter (fun t => t.recipe_id == rid)).map (fun t => t.cuisine_id)

/-- Ingredient associations of one recipe, projected to the resolved
catalog name, the quantity and the unit. -/
def ingredientDataOf (db : DB) (rid : Nat) : List (Option String × Rat × String) :=
  (db.recipe_ingredients.filter (fun t => t.recipe_id == rid)).map
    (fun t => (lookupIngredientName db t.ingredient_id, t.quantity, t.unit))

/-- Concrete database used to witness the theorems: one user, two cuisines,
and an aggregate recipe with one cuisine, one ingredient and one step
(exactly the state reached by the creation scenario of the spec). -/
def sampleDb : DB :=
  { users := [{ id := 1, name := "Ann", email := "ann@example.com",
                password_hash := "h", created_at := 0, updated_at := 0 }],
    cuisines := [{ id := 2, name := "Italian", description := none, created_at := 0 },
                 { id := 3, name := "Mexican", description := none, created_at := 0 }],
    ingredients := [{ id := 12, name := "Pasta" }],
    recipes := [{ id := 10, name := "Carbonara", description := "pasta dish",
                  author_id := 1, created_at := 5, updated_at := 5,
                  created_by := 1, updated_by := 1 }],
    recipe_cuisines := [{ id := 11, recipe_id := 10, cuisine_id := 2 }],
    recipe_steps := [{ id := 14, recipe_id := 10, step_number := 1, instruction := "Boil" }],
    recipe_ingredients := [{ id := 13, recipe_id := 10, ingredient_id := 12,
                             quantity := 400, unit := "grams" }],
    nextId := 20, now := 5 }

/-- Helper: a row whose key is filtered out cannot be found afterwards. -/
theorem find?_filter_ne {α : Type} (f : α → Nat) (id : Nat) (l : List α) :
    (l.filter (fun t => !(f t == id))).find? (fun t => f t == id) = none := by
  rw [List.find?_eq_none]
  intro x hx
  rw [List.mem_filter] at hx
  simpa using hx.2

/-- Step rows produced by the step-insert loop: identifiers are drawn
consecutively from the counter. -/
def stepRows (rid : Nat) : Nat → List StepInput → List RecipeStepRow
  | _, [] => []
  | n, s :: rest =>
    { id := n, recipe_id := rid, step_number := s.step_number, instruction := s.instruction }
      :: stepRows rid (n + 1) rest

/-- Cuisine association rows produced by the cuisine-insert loop. -/
def cuisineRows (rid : Nat) : Nat → List Nat → List RecipeCuisineRow
  | _, [] => []
  | n, c :: rest => { id := n, recipe_id := rid, cuisine_id := c } :: cuisineRows rid (n + 1) rest

/-- Inversion of a successful recipe_steps insert. -/
theorem insertRecipeStepRow_ok_elim {db db' : DB} {row : RecipeStepRow}
    (h : insertRecipeStepRow db row = .ok db') :
    db' = { db with recipe_steps := db.recipe_steps ++ [row] } ∧
    db.recipe_steps.any
      (fun t => t.recipe_id == row.recipe_id && t.step_number == row.step_number) = false ∧
    db.recipes.any (fun t => t.id == row.recipe_id) = true := by
  unfold insertRecipeStepRow at h
  split_ifs at h with h1 h2 h3
  cases h
  refine ⟨rfl, ?_, ?_⟩
  · simpa using h3
  · simpa using h2

/-- Inversion of a successful recipe_cuisines insert. -/
theorem insertRecipeCuisineRow_ok_elim {db db' : DB} {row : RecipeCuisineRow}
    (h : insertRecipeCuisineRow db row = .ok db') :
    db' = { db with recipe_cuisines := db.recipe_cuisines ++ [row] } ∧
    db.recipe_cuisines.any
      (fun t => t.recipe_id == row.recipe_id && t.cuisine_id == row.cuisine_id) = false ∧
    db.recipes.any (fun t => t.id == row.recipe_id) = true ∧
    db.cuisines.any (fun t => t.id == row.cuisine_id) = true := by
  unfold insertRecipeCuisineRow at h
  split_ifs at h with h1 h2 h3 h4
  cases h
  refine ⟨rfl, by simpa using h4, by simpa using h2, by simpa using h3⟩

/-- Inversion of a successful recipe_ingredients insert. -/
theorem insertRecipeIngredientRow_ok_elim {db db' : DB} {row : RecipeIngredientRow}
    (h : insertRecipeIngredientRow db row = .ok db') :
    db' = { db with recipe_ingredients := db.recipe_ingredients ++ [row] } ∧
    db.recipe_ingredients.any
      (fun t => t.recipe_id == row.recipe_id && t.ingredient_id == row.ingredient_id) = false := by
  unfold insertRecipeIngredientRow at h
  split_ifs at h with h1 h2 h3 h4
  cases h
  exact ⟨rfl, by simpa using h4⟩

/-- Specification of a successful run of the step-insert loop: every other
table is untouched and the generated rows are appended in order. -/
theorem insertRecipeSteps_ok_spec (rid : Nat) (l : List StepInput) :
    ∀ (db db' : DB), insertRecipeSteps rid db l = .ok db' →
    db'.users = db.users ∧ db'.cuisines = db.cuisines ∧ db'.ingredients = db.ingredients ∧
    db'.recipes = db.recipes ∧ db'.recipe_cuisines = db.recipe_cuisines ∧
    db'.recipe_ingredients = db.recipe_ingredients ∧ db'.now = db.now ∧
    db'.recipe_steps = db.recipe_steps ++ stepRows rid db.nextId l ∧
    db'.nextId = db.nextId + l.length := by
  induction l with
  | nil =>
    intro db db' h
    unfold insertRecipeSteps at h
    cases h
    simp [stepRows]
  | cons s rest ih =>
    intro db db' h
    unfold insertRecipeSteps at h
    simp only [genId] at h
    split at h
    · rename_i db2 heq
      obtain ⟨hdb2, -, -⟩ := insertRecipeStepRow_ok_elim heq
      obtain ⟨a1, a2, a3, a4, a5, a6, a7, a8, a9⟩ := ih db2 db' h
      subst hdb2
      refine ⟨a1, a2, a3, a4, a5, a6, a7, ?_, ?_⟩
      · rw [a8]
        simp [stepRows, List.append_assoc]
      · rw [a9]
        show db.nextId + 1 + rest.length = db.nextId + (rest.length + 1)
        omega
    · cases h

/-- Specification of a successful run of the cuisine-insert loop. -/
theorem insertRecipeCuisines_ok_spec (rid : Nat) (l : List Nat) :
    ∀ (db db' : DB), insertRecipeCuisines rid db l = .ok db' →
    db'.users = db.users ∧ db'.cuisines = db.cuisines ∧ db'.ingredients = db.ingredients ∧
    db'.recipes = db.recipes ∧ db'.recipe_steps = db.recipe_steps ∧
    db'.recipe_ingredients = db.recipe_ingredients ∧ db'.now = db.now ∧
    db'.recipe_cuisines = db.recipe_cuisines ++ cuisineRows rid db.nextId l ∧
    db'.nextId = db.nextId + l.length := by
  induction l with
  | nil =>
    intro db db' h
    unfold insertRecipeCuisines at h
    cases h
    simp [cuisineRows]
  | cons c rest ih =>
    intro db db' h
    unfold insertRecipeCuisines at h
    simp only [genId] at h
    split at h
    · rename_i db2 heq
      obtain ⟨hdb2, -, -, -⟩ := insertRecipeCuisineRow_ok_elim heq
      obtain ⟨a1, a2, a3, a4, a5, a6, a7, a8, a9⟩ := ih db2 db' h
      subst hdb2
      refine ⟨a1, a2, a3, a4, a5, a6, a7, ?_, ?_⟩
      · rw [a8]
        simp [cuisineRows, List.append_assoc]
      · rw [a9]
        show db.nextId + 1 + rest.length = db.nextId + (rest.length + 1)
        omega
    · cases h

/-- Inversion of a successful ingredients insert. -/
theorem insertIngredientRow_ok_elim {db db' : DB} {row : IngredientRow}
    (h : insertIngredientRow db row = .ok db') :
    db' = { db with ingredients := db.ingredients ++ [row] } ∧
    db.ingredients.any (fun t => t.name == row.name) = false ∧
    db.ingredients.any (fun t => t.id == row.id) = false := by
  unfold insertIngredientRow at h
  split_ifs at h with h1 h2
  cases h
  exact ⟨rfl, by simpa using h2, by simpa using h1⟩

/-- Frame facts of a successful getOrCreateIngredient call: only the
ingredients table can change, and it changes by appending one fresh row. -/
theorem getOrCreateIngredient_ok_elim {db db1 : DB} {name : String} {iid : Nat}
    (h : getOrCreateIngredient db name = .ok (iid, db1)) :
    db1.users = db.users ∧ db1.cuisines = db.cuisines ∧ db1.recipes = db.recipes ∧
    db1.recipe_cuisines = db.recipe_cuisines ∧ db1.recipe_steps = db.recipe_steps ∧
    db1.recipe_ingredients = db.recipe_ingredients ∧ db1.now = db.now ∧
    (db1.ingredients = db.ingredients ∨
      (iid = db.nextId ∧
        db1.ingredients = db.ingredients ++ [{ id := db.nextId, name := name }])) ∧
    db.nextId ≤ db1.nextId := by
  unfold getOrCreateIngredient at h
  split at h
  · cases h
    exact ⟨rfl, rfl, rfl, rfl, rfl, rfl, rfl, Or.inl rfl, Nat.le_refl _⟩
  · simp only [genId] at h
    split at h
    · rename_i db2 heq
      cases h
      obtain ⟨hdb2, -, -⟩ := insertIngredientRow_ok_elim heq
      subst hdb2
      exact ⟨rfl, rfl, rfl, rfl, rfl, rfl, rfl, Or.inr ⟨rfl, rfl⟩, Nat.le_succ _⟩
    · cases h

/-- Frame facts of a successful run of the update-flavoured ingredient
loop: recipes, steps and cuisine associations are untouched; the catalog
and the recipe_ingredients table only grow, the latter only with rows of
the given recipe. -/
theorem updateRecipeInsertIngredients_frames (rid : Nat) (l : List UpdateIngredientInput) :
    ∀ (db db' : DB), updateRecipeInsertIngredients rid db l = .ok db' →
    db'.users = db.users ∧ db'.cuisines = db.cuisines ∧ db'.recipes = db.recipes ∧
    db'.recipe_cuisines = db.recipe_cuisines ∧ db'.recipe_steps = db.recipe_steps ∧
    db'.now = db.now ∧
    (∃ ext, db'.ingredients = db.ingredients ++ ext) ∧
    (∃ rows, db'.recipe_ingredients = db.recipe_ingredients ++ rows ∧
      ∀ t ∈ rows, t.recipe_id = rid) ∧
    db.nextId ≤ db'.nextId := by
  induction l with
  | nil =>
    intro db db' h
    unfold updateRecipeInsertIngredients at h
    cases h
    exact ⟨rfl, rfl, rfl, rfl, rfl, rfl, ⟨[], by simp⟩, ⟨[], by simp⟩, Nat.le_refl _⟩
  | cons ing rest ih =>
    intro db db' h
    unfold updateRecipeInsertIngredients at h
    split at h
    · rename_i e heq
      cases h
    · rename_i iid db1 heq
      rw [getOrCreateIngredientSync] at heq
      obtain ⟨b1, b2, b3, b4, b5, b6, b7, b8, b9⟩ := getOrCreateIngredient_ok_elim heq
      simp only [genId] at h
      split at h
      · rename_i db3 heq2
        obtain ⟨hdb3, -⟩ := insertRecipeIngredientRow_ok_elim heq2
        obtain ⟨a1, a2, a3, a4, a5, a6, a7, a8, a9⟩ := ih db3 db' h
        subst hdb3
        refine ⟨a1.trans b1, a2.trans b2, a3.trans b3, a4.trans b4, a5.trans b5,
          a6.trans b7, ?_, ?_, ?_⟩
        · obtain ⟨ext, hext⟩ := a7
          rcases b8 with hsame | ⟨-, happ⟩
          · exact ⟨ext, by rw [hext]; simp [hsame]⟩
          · refine ⟨{ id := db.nextId, name := ing.name } :: ext, ?_⟩
            rw [hext]
            simp [happ, List.append_assoc]
        · obtain ⟨rows, hrows, hall⟩ := a8
          refine ⟨{ id := db1.nextId, recipe_id := rid, ingredient_id := iid,
                    quantity := ing.quantity, unit := ing.unit } :: rows, ?_, ?_⟩
          · rw [hrows]
            simp [b6, List.append_assoc]
          · intro t ht
            rcases List.mem_cons.mp ht with hh | hh
            · rw [hh]
            · exact hall t hh
        · calc db.nextId ≤ db1.nextId := b9
            _ ≤ db1.nextId + 1 := Nat.le_succ _
            _ ≤ db'.nextId := a9
      · cases h

/-- Helper: in a table whose key column is pairwise distinct, looking a
member row up by its key finds exactly that row. -/
theorem find?_key_of_mem {α : Type} (f : α → Nat) {l : List α}
    (h : (l.map f).Nodup) {x : α} (hm : x ∈ l) :
    l.find? (fun t => f t == f x) = some x := by
  induction l with
  | nil => cases hm
  | cons a rest ih =>
    rw [List.map_cons, List.nodup_cons] at h
    rcases List.mem_cons.mp hm with rfl | hmem
    · simp [List.find?]
    · have hne : ¬ (f a == f x) = true := by
        intro he
        exact h.1 (by
          have : f a = f x := by simpa using he
          exact this ▸ List.mem_map_of_mem f hmem)
      rw [@List.find?_cons_of_neg _ (fun t => f t == f x) a rest hne]
      exact ih h.2 hmem

/-- C4: resolving an ingredient name is idempotent: the first call returns
an identifier (reusing the stored row or inserting a fresh one), every
later call with the same name returns the same identifier and leaves the
state fixed, and the catalog keeps its names pairwise distinct. -/
theorem c4_ingredient_catalog_idempotent (db : DB) (name : String)
    (hok : IngredientsOk db) (hnames : (db.ingredients.map (fun t => t.name)).Nodup) :
    ∃ iid db', getOrCreateIngredient db name = .ok (iid, db') ∧
      getOrCreateIngredient db' name = .ok (iid, db') ∧
      getOrCreateIngredientSync db' name = .ok (iid, db') ∧
      (db'.ingredients.map (fun t => t.name)).Nodup ∧
      ((∃ ing ∈ db.ingredients, ing.name = name ∧ ing.id = iid ∧ db' = db) ∨
        ((∀ ing ∈ db.ingredients, ing.name ≠ name) ∧ iid = db.nextId ∧
          db'.ingredients = db.ingredients ++ [{ id := db.nextId, name := name }])) := by
  cases hfind : db.ingredients.find? (fun t => t.name == name) with
  | some ing =>
    have hcall : getOrCreateIngredient db name = .ok (ing.id, db) := by
      unfold getOrCreateIngredient
      rw [hfind]
    refine ⟨ing.id, db, hcall, hcall, ?_, hnames,
      Or.inl ⟨ing, List.mem_of_find?_eq_some hfind, by simpa using List.find?_some hfind,
        rfl, rfl⟩⟩
    rw [getOrCreateIngredientSync]
    exact hcall
  | none =>
    have habsent : ∀ ing ∈ db.ingredients, ing.name ≠ name := by
      intro ing hm he
      have := List.find?_eq_none.mp hfind ing hm
      simp [he] at this
    have hins : insertIngredientRow { db with nextId := db.nextId + 1 }
        { id := db.nextId, name := name }
        = .ok { db with nextId := db.nextId + 1,
                        ingredients := db.ingredients ++ [{ id := db.nextId, name := name }] } := by
      unfold insertIngredientRow
      rw [if_neg, if_neg]
      · intro hany
        obtain ⟨t, hm, ht⟩ := List.any_eq_true.mp hany
        exact habsent t hm (by simpa using ht)
      · intro hany
        obtain ⟨t, hm, ht⟩ := List.any_eq_true.mp hany
        have : t.id = db.nextId := by simpa using ht
        exact absurd (this ▸ hok.2 t hm) (by omega)
    have hcall : getOrCreateIngredient db name =
        .ok (db.nextId,
          { db with nextId := db.nextId + 1,
                    ingredients := db.ingredients ++ [{ id := db.nextId, name := name }] }) := by
      unfold getOrCreateIngredient
      rw [hfind]
      simp only [genId]
      rw [hins]
    have hsecond : getOrCreateIngredient
        { db with nextId := db.nextId + 1,
                  ingredients := db.ingredients ++ [{ id := db.nextId, name := name }] } name
        = .ok (db.nextId,
          { db with nextId := db.nextId + 1,
                    ingredients := db.ingredients ++ [{ id := db.nextId, name := name }] }) := by
      unfold getOrCreateIngredient
      have : (db.ingredients ++ [({ id := db.nextId, name := name } : IngredientRow)]).find?
          (fun t => t.name == name) = some { id := db.nextId, name := name } := by
        rw [List.find?_append, hfind]
        simp [List.find?]
      rw [this]
    refine ⟨db.nextId, _, hcall, hsecond, ?_, ?_, Or.inr ⟨habsent, rfl, rfl⟩⟩
    · rw [getOrCreateIngredientSync]
      exact hsecond
    · rw [List.map_append, List.nodup_append]
      refine ⟨hnames, by simp, ?_⟩
      intro n hn
      obtain ⟨ing, hm, he⟩ := List.mem_map.mp hn
      simp only [List.map_cons, List.map_nil, List.mem_cons, List.not_mem_nil, or_false]
      exact fun hcontra => habsent ing hm (he.trans hcontra)

/-- Witness for C4 at the sample database with a name already in the
catalog. -/
theorem c4_ingredient_catalog_idempotent_witness :
    IngredientsOk sampleDb ∧
    (sampleDb.ingredients.map (fun t => t.name)).Nodup ∧
    ∃ iid db', getOrCreateIngredient sampleDb "Pasta" = .ok (iid, db') ∧
      getOrCreateIngredient db' "Pasta" = .ok (iid, db') ∧
      getOrCreateIngredientSync db' "Pasta" = .ok (iid, db') ∧
      (db'.ingredients.map (fun t => t.name)).Nodup ∧
      ((∃ ing ∈ sampleDb.ingredients, ing.name = "Pasta" ∧ ing.id = iid ∧ db' = sampleDb) ∨
        ((∀ ing ∈ sampleDb.ingredients, ing.name ≠ "Pasta") ∧ iid = sampleDb.nextId ∧
          db'.ingredients =
            sampleDb.ingredients ++ [{ id := sampleDb.nextId, name := "Pasta" }])) :=
  ⟨by decide, by decide,
    c4_ingredient_catalog_idempotent sampleDb "Pasta" (by decide) (by decide)⟩

/-- C2: the recipe filter schema admits four sort keys, but the recipes
table has no author column, so the interpolated ORDER BY r.author cannot be
prepared and getRecipes fails for that key (in both directions), while the
other three keys succeed in both directions. Evaluated on the populated
sample database. -/
theorem c2_sort_by_author_fails :
    getRecipes sampleDb { sortBy := some .author } = .error (.noSuchColumn "author") ∧
    getRecipes sampleDb { sortBy := some .author, sortOrder := some .asc }
      = .error (.noSuchColumn "author") ∧
    (getRecipes sampleDb { sortBy := some .name, sortOrder := some .asc }).isOk = true ∧
    (getRecipes sampleDb { sortBy := some .name, sortOrder := some .desc }).isOk = true ∧
    (getRecipes sampleDb { sortBy := some .created_at, sortOrder := some .asc }).isOk = true ∧
    (getRecipes sampleDb { sortBy := some .created_at, sortOrder := some .desc }).isOk = true ∧
    (getRecipes sampleDb { sortBy := some .updated_at, sortOrder := some .asc }).isOk = true ∧
    (getRecipes sampleDb { sortBy := some .updated_at, sortOrder := some .desc }).isOk = true := by
  decide

/-- Helper: the length of a filterMap is the number of elements on which
the function succeeds. -/
theorem length_filterMap_eq_length_filter {α β : Type} (f : α → Option β) (l : List α) :
    (l.filterMap f).length = (l.filter (fun x => (f x).isSome)).length := by
  induction l with
  | nil => rfl
  | cons a rest ih =>
    cases hfa : f a with
    | none => simpa [List.filterMap_cons, List.filter_cons, hfa] using ih
    | some b => simpa [List.filterMap_cons, List.filter_cons, hfa] using ih

/-- C6 counterexample: with the author sort key the list call fails
outright instead of returning a page and a total, so the claim does not
hold for every filter. -/
theorem c6_counterexample :
    getRecipes sampleDb { limit := some 1, page := some 1, sortBy := some .author }
      = .error (.noSuchColumn "author") := by
  decide

/-- C6 (amended): for every filter whose sort key names a real column,
getRecipes returns at most limit rows, all matching the WHERE predicate,
together with a total counted over the same predicate with pagination
ignored; with limit 1 and page 1 it returns exactly one row as soon as
anything matches. -/
theorem c6_pagination_total (db : DB) (f : RecipeFilter)
    (hids : (db.recipes.map (fun t => t.id)).Nodup)
    (hsb : f.sortBy.getD .created_at ≠ .author) :
    ∃ p, getRecipes db f = .ok p ∧
      p.recipes.length ≤ f.limit.getD 20 ∧
      (∀ r ∈ p.recipes, matchesFilter db f r = true) ∧
      p.total = (db.recipes.filter (matchesFilter db f)).length ∧
      (f.limit = some 1 → f.page = some 1 → 1 ≤ p.total → p.recipes.length = 1) := by
  have hcol : recipesTableColumns.contains (sortByColumn (f.sortBy.getD .created_at)) = true := by
    cases h : f.sortBy.getD .created_at
    · decide
    · decide
    · decide
    · exact absurd h hsb
  have htotal : (((db.recipes.filter (matchesFilter db f)).map (fun t => t.id)).dedup).length
      = (db.recipes.filter (matchesFilter db f)).length := by
    have hsub : ((db.recipes.filter (matchesFilter db f)).map (fun t => t.id)).Sublist
        (db.recipes.map (fun t => t.id)) :=
      (List.filter_sublist db.recipes).map (fun t => t.id)
    rw [List.dedup_eq_self.mpr (hsub.nodup hids), List.length_map]
  unfold getRecipes
  rw [if_pos hcol]
  refine ⟨_, rfl, ?_, ?_, htotal, ?_⟩
  · rw [List.length_take]
    exact Nat.min_le_left _ _
  · intro r hr
    have h1 := List.mem_of_mem_take hr
    have h2 := List.mem_of_mem_drop h1
    have h3 := (List.mergeSort_perm _ _).mem_iff.mp h2
    exact (List.mem_filter.mp h3).2
  · intro hl hp htot
    rw [htotal] at htot
    dsimp only at htot ⊢
    rw [hl, hp]
    simp only [Option.getD_some, Nat.sub_self, Nat.zero_mul, List.drop_zero,
      List.length_take, List.length_mergeSort]
    omega

/-- Witness for C6 at the sample database with limit 1 and page 1. -/
theorem c6_pagination_total_witness :
    (sampleDb.recipes.map (fun t => t.id)).Nodup ∧
    ∃ p, getRecipes sampleDb { limit := some 1, page := some 1 } = .ok p ∧
      p.recipes.length ≤ 1 ∧
      (∀ r ∈ p.recipes, matchesFilter sampleDb { limit := some 1, page := some 1 } r = true) ∧
      p.total = (sampleDb.recipes.filter
        (matchesFilter sampleDb { limit := some 1, page := some 1 })).length ∧
      (some 1 = some 1 → some 1 = some 1 → 1 ≤ p.total → p.recipes.length = 1) :=
  ⟨by decide,
    c6_pagination_total sampleDb { limit := some 1, page := some 1 } (by decide) (by decide)⟩

/-- Helper: membership in the join-row list of one cuisine. -/
theorem mem_cuisineJoinedRecipes {db : DB} {c : CuisineRow} {r2 : RecipeRow} :
    r2 ∈ cuisineJoinedRecipes db c ↔
    ∃ rc ∈ db.recipe_cuisines, rc.cuisine_id = c.id ∧
      db.recipes.find? (fun t => t.id == rc.recipe_id) = some r2 := by
  unfold cuisineJoinedRecipes
  rw [List.mem_filterMap]
  constructor
  · rintro ⟨rc, hrc, hfind⟩
    obtain ⟨hm, hcid⟩ := List.mem_filter.mp hrc
    exact ⟨rc, hm, by simpa using hcid, hfind⟩
  · rintro ⟨rc, hm, hcid, hfind⟩
    exact ⟨rc, List.mem_filter.mpr ⟨hm, by simpa using hcid⟩, hfind⟩

/-- C7: the grouped-by-cuisine view excludes every cuisine without a
recipe, while the plain cuisine listing still contains it; every cuisine
with at least one recipe appears in the view with its id, its name, the
count of its distinct recipes, and the flattened (id, name, description)
triples of exactly its recipes. -/
theorem c7_grouped_by_cuisine (db : DB)
    (hcids : (db.cuisines.map (fun t => t.id)).Nodup)
    (hrids : (db.recipes.map (fun t => t.id)).Nodup)
    (hau : AssocUnique db) :
    ∀ c ∈ db.cuisines,
      c ∈ getCuisines db ∧
      ((∀ rc ∈ db.recipe_cuisines, rc.cuisine_id = c.id →
          ∀ r ∈ db.recipes, r.id ≠ rc.recipe_id) →
        ∀ g ∈ getRecipesGroupedByCuisine db, g.cuisine_id ≠ c.id) ∧
      ((∃ rc ∈ db.recipe_cuisines, rc.cuisine_id = c.id ∧
          ∃ r ∈ db.recipes, r.id = rc.recipe_id) →
        ∃ g ∈ getRecipesGroupedByCuisine db, g.cuisine_id = c.id ∧ g.cuisine_name = c.name ∧
          g.recipe_count = ((((db.recipe_cuisines.filter
              (fun rc => rc.cuisine_id == c.id)).filter
              (fun rc => db.recipes.any (fun t => t.id == rc.recipe_id))).map
              (fun rc => rc.recipe_id)).dedup).length ∧
          (∀ x, x ∈ g.recipes ↔ ∃ r ∈ db.recipes,
            (∃ rc ∈ db.recipe_cuisines, rc.cuisine_id = c.id ∧ rc.recipe_id = r.id) ∧
            x = (r.id, r.name, r.description))) := by
  intro c hc
  refine ⟨(List.mergeSort_perm db.cuisines (fun a b => strLe a.name b.name)).mem_iff.mpr hc,
    ?_, ?_⟩
  · intro hnone g hg heq
    unfold getRecipesGroupedByCuisine at hg
    obtain ⟨c2, hc2, hfc2⟩ := List.mem_filterMap.mp hg
    have hc2mem : c2 ∈ db.cuisines :=
      (List.mergeSort_perm db.cuisines (fun a b => strLe a.name b.name)).mem_iff.mp hc2
    by_cases hje : (cuisineJoinedRecipes db c2).isEmpty = true
    · rw [if_pos hje] at hfc2
      cases hfc2
    · rw [if_neg hje] at hfc2
      have hgid : g.cuisine_id = c2.id := by
        cases hfc2
        rfl
      have hc2c : c2 = c :=
        List.inj_on_of_nodup_map hcids hc2mem hc (by rw [← hgid, heq])
      subst hc2c
      obtain ⟨r2, hr2⟩ := List.exists_mem_of_ne_nil _ (List.isEmpty_eq_false.mp
        (Bool.eq_false_iff.mpr hje))
      obtain ⟨rc, hm, hcid, hfind⟩ := mem_cuisineJoinedRecipes.mp hr2
      have hr2mem : r2 ∈ db.recipes := List.mem_of_find?_eq_some hfind
      have hr2id : r2.id = rc.recipe_id := by simpa using List.find?_some hfind
      exact hnone rc hm hcid r2 hr2mem hr2id
  · rintro ⟨rc, hm, hcid, r, hr, hrid⟩
    have hjoined : r ∈ cuisineJoinedRecipes db c := by
      rw [mem_cuisineJoinedRecipes]
      refine ⟨rc, hm, hcid, ?_⟩
      rw [← hrid]
      exact find?_key_of_mem (fun t => t.id) hrids hr
    have hne : ¬ (cuisineJoinedRecipes db c).isEmpty = true := by
      rw [List.isEmpty_iff]
      exact List.ne_nil_of_mem hjoined
    refine ⟨_, List.mem_filterMap.mpr
      ⟨c, (List.mergeSort_perm db.cuisines (fun a b => strLe a.name b.name)).mem_iff.mpr hc,
        by rw [if_neg hne]⟩, rfl, rfl, ?_, ?_⟩
    · -- recipe_count: the join-row count equals the distinct-recipe count.
      have hlive : (cuisineJoinedRecipes db c).length
          = ((db.recipe_cuisines.filter (fun t => t.cuisine_id == c.id)).filter
              (fun t => db.recipes.any (fun t2 => t2.id == t.recipe_id))).length := by
        unfold cuisineJoinedRecipes
        rw [length_filterMap_eq_length_filter]
        congr 1
        apply List.filter_congr
        intro t ht
        rw [Bool.eq_iff_iff, List.find?_isSome, List.any_eq_true]
      have hpair : ((db.recipe_cuisines.filter (fun t => t.cuisine_id == c.id)).filter
          (fun t => db.recipes.any (fun t2 => t2.id == t.recipe_id))).Pairwise
          (fun a b => a.recipe_id ≠ b.recipe_id) := by
        have hsub : ((db.recipe_cuisines.filter (fun t => t.cuisine_id == c.id)).filter
            (fun t => db.recipes.any (fun t2 => t2.id == t.recipe_id))).Sublist
            db.recipe_cuisines :=
          (List.filter_sublist _).trans (List.filter_sublist _)
        refine List.Pairwise.imp_of_mem ?_ (List.Pairwise.sublist hsub hau)
        intro a b ha hb hab
        rcases hab with hne2 | hne2
        · exact hne2
        · have hac : a.cuisine_id = c.id := by
            simpa using (List.mem_filter.mp (List.mem_of_mem_filter ha)).2
          have hbc : b.cuisine_id = c.id := by
            simpa using (List.mem_filter.mp (List.mem_of_mem_filter hb)).2
          exact absurd (hac.trans hbc.symm) hne2
      have hnodup : (((db.recipe_cuisines.filter (fun t => t.cuisine_id == c.id)).filter
          (fun t => db.recipes.any (fun t2 => t2.id == t.recipe_id))).map
          (fun t => t.recipe_id)).Nodup := by
        rw [List.Nodup, List.pairwise_map]
        exact hpair
      rw [List.dedup_eq_self.mpr hnodup, List.length_map]
      exact hlive
    · intro x
      constructor
      · intro hx
        obtain ⟨r2, hr2, hxr2⟩ := List.mem_map.mp hx
        obtain ⟨rc2, hm2, hcid2, hfind2⟩ := mem_cuisineJoinedRecipes.mp hr2
        have : r2.id = rc2.recipe_id := by simpa using List.find?_some hfind2
        exact ⟨r2, List.mem_of_find?_eq_some hfind2, ⟨rc2, hm2, hcid2, this.symm⟩, hxr2.symm⟩
      · rintro ⟨r3, hr3, ⟨rc3, hm3, hcid3, hrid3⟩, hx⟩
        rw [hx]
        apply List.mem_map_of_mem
        rw [mem_cuisineJoinedRecipes]
        refine ⟨rc3, hm3, hcid3, ?_⟩
        rw [hrid3]
        exact find?_key_of_mem (fun t => t.id) hrids hr3

/-- Witness for C7 at the sample database: cuisine Mexican (id 3) has no
recipe and is absent from the grouped view yet listed by getCuisines;
cuisine Italian (id 2) has recipe 10. -/
theorem c7_grouped_by_cuisine_witness :
    ((sampleDb.cuisines.map (fun t => t.id)).Nodup ∧
      (sampleDb.recipes.map (fun t => t.id)).Nodup ∧ AssocUnique sampleDb) ∧
    ({ id := 3, name := "Mexican", description := none, created_at := 0 } : CuisineRow)
      ∈ getCuisines sampleDb ∧
    (∀ g ∈ getRecipesGroupedByCuisine sampleDb, g.cuisine_id ≠ 3) ∧
    (∃ g ∈ getRecipesGroupedByCuisine sampleDb, g.cuisine_id = 2 ∧ g.cuisine_name = "Italian") := by
  refine ⟨⟨by decide, by decide, by decide⟩, ?_, ?_, ?_⟩
  · exact (c7_grouped_by_cuisine sampleDb (by decide) (by decide) (by decide)
      { id := 3, name := "Mexican", description := none, created_at := 0 } (by decide)).1
  · exact (c7_grouped_by_cuisine sampleDb (by decide) (by decide) (by decide)
      { id := 3, name := "Mexican", description := none, created_at := 0 } (by decide)).2.1
      (by decide)
  · obtain ⟨g, hg, h1, h2, -⟩ := (c7_grouped_by_cuisine sampleDb (by decide) (by decide)
      (by decide) { id := 2, name := "Italian", description := none, created_at := 0 }
      (by decide)).2.2
      ⟨{ id := 11, recipe_id := 10, cuisine_id := 2 }, by decide, rfl,
        { id := 10, name := "Carbonara", description := "pasta dish", author_id := 1,
          created_at := 5, updated_at := 5, created_by := 1, updated_by := 1 }, by decide, rfl⟩
    exact ⟨g, hg, h1, h2⟩

/-- Helper: inversion of a successful Except bind. -/
theorem except_bind_ok {α β : Type} {x : Except SqlError α} {f : α → Except SqlError β} {b : β}
    (h : (x >>= f) = .ok b) : ∃ a, x = .ok a ∧ f a = .ok b := by
  cases x with
  | ok a => exact ⟨a, rfl, h⟩
  | error e => exact absurd h (by simp [Bind.bind, Except.bind])

/-- Inversion of a successful recipes insert: the row is appended and the
three user foreign keys resolved. -/
theorem insertRecipeRow_ok_elim {db db' : DB} {row : RecipeRow}
    (h : insertRecipeRow db row = .ok db') :
    db' = { db with recipes := db.recipes ++ [row] } ∧
    db.recipes.any (fun t => t.id == row.id) = false ∧
    db.users.any (fun t => t.id == row.author_id) = true ∧
    db.users.any (fun t => t.id == row.created_by) = true ∧
    db.users.any (fun t => t.id == row.updated_by) = true := by
  unfold insertRecipeRow at h
  split_ifs at h with h1 h2 h3 h4
  cases h
  exact ⟨rfl, by simpa using h1, by simpa using h2, by simpa using h3, by simpa using h4⟩

/-- Helper: bind propagates an error unchanged. -/
theorem except_bind_error {α β : Type} {x : Except SqlError α} {f : α → Except SqlError β}
    {e : SqlError} (h : x = .error e) : (x >>= f) = .error e := by
  rw [h]
  rfl

/-- The recipe insert of createRecipe without a supplied author fails: the
substituted author identifier is freshly generated, hence matches no users
row, and the foreign key rejects it inside the transaction. -/
theorem createRecipe_noAuthor_error (db : DB) (r : CreateRecipeInput)
    (hfresh : IdsFresh db) (ha : r.author_id = none) :
    createRecipe db r = .error .constraintForeignKey := by
  obtain ⟨husers, -, -, hrecipes, -, -, -⟩ := hfresh
  have hins : insertRecipeRow
      { db with nextId := db.nextId + 1 + 1 }
      { id := db.nextId, name := r.name, description := r.description,
        author_id := db.nextId + 1, created_at := db.now, updated_at := db.now,
        created_by := r.created_by.getD (db.nextId + 1),
        updated_by := r.updated_by.getD (db.nextId + 1) } = .error .constraintForeignKey := by
    unfold insertRecipeRow
    split_ifs with h1 h2 h3 h4
    · exfalso
      simp only [List.any_eq_true] at h1
      obtain ⟨t, hm, ht⟩ := h1
      have : t.id = db.nextId := by simpa using ht
      exact absurd (this ▸ hrecipes t hm) (by omega)
    · rfl
    · rfl
    · rfl
    · exfalso
      apply h2
      simp only [Bool.not_eq_true', List.any_eq_false]
      intro t hm ht
      have : t.id = db.nextId + 1 := by simpa using ht
      exact absurd (this ▸ husers t hm) (by omega)
  unfold createRecipe
  simp only [ha, genId]
  rw [except_bind_error hins]

/-- C8: createRecipe with no author_id substitutes a fresh identifier,
which violates the foreign key into users, so the whole creation fails and
nothing is stored; conversely a successful creation implies the supplied
author_id exists in users and the effective created_by and updated_by
(defaulted to the author) exist as well. -/
theorem c8_create_requires_existing_users (db : DB) (r : CreateRecipeInput)
    (hfresh : IdsFresh db) :
    (r.author_id = none →
      createRecipe db r = .error .constraintForeignKey ∧ dbAfterCreate db r = db) ∧
    (∀ rid db', createRecipe db r = .ok (rid, db') →
      ∃ a, r.author_id = some a ∧
        (∃ u ∈ db.users, u.id = a) ∧
        (∃ u ∈ db.users, u.id = r.created_by.getD a) ∧
        (∃ u ∈ db.users, u.id = r.updated_by.getD a)) := by
  constructor
  · intro ha
    have herr := createRecipe_noAuthor_error db r hfresh ha
    refine ⟨herr, ?_⟩
    unfold dbAfterCreate
    rw [herr]
  · intro rid db' hok
    cases ha : r.author_id with
    | none =>
      rw [createRecipe_noAuthor_error db r hfresh ha] at hok
      cases hok
    | some a =>
      unfold createRecipe at hok
      simp only [ha, genId] at hok
      obtain ⟨db3, hins, -⟩ := except_bind_ok hok
      obtain ⟨-, -, hau, hcb, hub⟩ := insertRecipeRow_ok_elim hins
      simp only [List.any_eq_true] at hau hcb hub
      obtain ⟨u1, hu1, hb1⟩ := hau
      obtain ⟨u2, hu2, hb2⟩ := hcb
      obtain ⟨u3, hu3, hb3⟩ := hub
      exact ⟨a, rfl, ⟨u1, hu1, by simpa using hb1⟩, ⟨u2, hu2, by simpa using hb2⟩,
        ⟨u3, hu3, by simpa using hb3⟩⟩

/-- Witness for C8: on the sample database, creating without an author
fails with a foreign-key violation and stores nothing. -/
theorem c8_create_requires_existing_users_witness :
    IdsFresh sampleDb ∧
    createRecipe sampleDb { name := "Orphan", description := "d" }
      = .error .constraintForeignKey ∧
    dbAfterCreate sampleDb { name := "Orphan", description := "d" } = sampleDb :=
  ⟨by decide,
    (c8_create_requires_existing_users sampleDb { name := "Orphan", description := "d" }
      (by decide)).1 rfl⟩

/-- Helper: the step-insert loop fails whenever the table already holds a
step of the recipe whose number occurs in the remaining list. -/
theorem insertRecipeSteps_error_of_mem (rid : Nat) (l : List StepInput) :
    ∀ (db : DB) (n : Nat),
    (∃ t ∈ db.recipe_steps, t.recipe_id = rid ∧ t.step_number = n) →
    n ∈ l.map (fun s => s.step_number) →
    ∃ e, insertRecipeSteps rid db l = .error e := by
  induction l with
  | nil =>
    intro db n _ hmem
    simp at hmem
  | cons s rest ih =>
    intro db n hex hmem
    unfold insertRecipeSteps
    simp only [genId]
    cases hrow : insertRecipeStepRow { db with nextId := db.nextId + 1 }
        { id := db.nextId, recipe_id := rid, step_number := s.step_number,
          instruction := s.instruction } with
    | error e => exact ⟨e, rfl⟩
    | ok db2 =>
      obtain ⟨hdb2, hchk, -⟩ := insertRecipeStepRow_ok_elim hrow
      rw [List.map_cons, List.mem_cons] at hmem
      rcases hmem with heq | hmem2
      · exfalso
        obtain ⟨t, ht, htr, htn⟩ := hex
        rw [List.any_eq_false] at hchk
        exact hchk t ht (by simp [htr, htn, ← heq])
      · obtain ⟨t, ht, htr, htn⟩ := hex
        obtain ⟨e, he⟩ := ih db2 n
          ⟨t, by rw [hdb2]; exact List.mem_append_left _ ht, htr, htn⟩ hmem2
        exact ⟨e, he⟩

/-- Helper: the step-insert loop fails whenever two supplied entries share
a step number — the first insert lands, the second violates
UNIQUE(recipe_id, step_number). -/
theorem insertRecipeSteps_error_of_dup (rid : Nat) (l : List StepInput) :
    ∀ (db : DB), ¬ (l.map (fun s => s.step_number)).Nodup →
    ∃ e, insertRecipeSteps rid db l = .error e := by
  induction l with
  | nil =>
    intro db hdup
    exact absurd (by simp) hdup
  | cons s rest ih =>
    intro db hdup
    rw [List.map_cons, List.nodup_cons] at hdup
    by_cases h1 : s.step_number ∈ rest.map (fun t => t.step_number)
    · unfold insertRecipeSteps
      simp only [genId]
      cases hrow : insertRecipeStepRow { db with nextId := db.nextId + 1 }
          { id := db.nextId, recipe_id := rid, step_number := s.step_number,
            instruction := s.instruction } with
      | error e => exact ⟨e, rfl⟩
      | ok db2 =>
        obtain ⟨hdb2, -, -⟩ := insertRecipeStepRow_ok_elim hrow
        obtain ⟨e, he⟩ := insertRecipeSteps_error_of_mem rid rest db2 s.step_number
          ⟨{ id := db.nextId, recipe_id := rid, step_number := s.step_number,
             instruction := s.instruction },
            by rw [hdb2]; exact List.mem_append_right _ (List.mem_singleton_self _), rfl, rfl⟩
          h1
        exact ⟨e, he⟩
    · have h2 : ¬ (rest.map (fun t => t.step_number)).Nodup := fun hn => hdup ⟨h1, hn⟩
      unfold insertRecipeSteps
      simp only [genId]
      cases hrow : insertRecipeStepRow { db with nextId := db.nextId + 1 }
          { id := db.nextId, recipe_id := rid, step_number := s.step_number,
            instruction := s.instruction } with
      | error e => exact ⟨e, rfl⟩
      | ok db2 =>
        obtain ⟨e, he⟩ := ih db2 h2
        exact ⟨e, he⟩

/-- C1: a createRecipe call whose steps list repeats a step number violates
UNIQUE(recipe_id, step_number) inside the transaction, so the error is
surfaced, the pre-state is kept bit for bit, and afterwards no recipe row
and no association or step row carries the identifier the call would have
assigned (db.nextId). -/
theorem c1_create_recipe_atomic (db : DB) (r : CreateRecipeInput) (ss : List StepInput)
    (hfresh : IdsFresh db) (hss : r.steps = some ss)
    (hdup : ¬ (ss.map (fun s => s.step_number)).Nodup) :
    (∃ e, createRecipe db r = .error e) ∧
    dbAfterCreate db r = db ∧
    (∀ t ∈ (dbAfterCreate db r).recipes, t.id ≠ db.nextId) ∧
    (∀ t ∈ (dbAfterCreate db r).recipe_cuisines, t.recipe_id ≠ db.nextId) ∧
    (∀ t ∈ (dbAfterCreate db r).recipe_steps, t.recipe_id ≠ db.nextId) ∧
    (∀ t ∈ (dbAfterCreate db r).recipe_ingredients, t.recipe_id ≠ db.nextId) := by
  have hlen : ss.length > 0 := by
    cases ss with
    | nil => exact absurd (by simp) hdup
    | cons a l => simp
  have herr : ∃ e, createRecipe db r = .error e := by
    cases hc : createRecipe db r with
    | error e => exact ⟨e, rfl⟩
    | ok p =>
      exfalso
      obtain ⟨rid, db'⟩ := p
      have hsteps : ∃ db5 db6, createStepsStage db.nextId r db5 = .ok db6 := by
        unfold createRecipe at hc
        cases ha : r.author_id with
        | none =>
          simp only [ha, genId] at hc
          obtain ⟨db3, -, h2⟩ := except_bind_ok hc
          obtain ⟨db4, -, h3⟩ := except_bind_ok h2
          obtain ⟨db5, -, h4⟩ := except_bind_ok h3
          obtain ⟨db6, h5, -⟩ := except_bind_ok h4
          exact ⟨db5, db6, h5⟩
        | some a =>
          simp only [ha, genId] at hc
          obtain ⟨db3, -, h2⟩ := except_bind_ok hc
          obtain ⟨db4, -, h3⟩ := except_bind_ok h2
          obtain ⟨db5, -, h4⟩ := except_bind_ok h3
          obtain ⟨db6, h5, -⟩ := except_bind_ok h4
          exact ⟨db5, db6, h5⟩
      obtain ⟨db5, db6, h5⟩ := hsteps
      unfold createStepsStage at h5
      rw [hss] at h5
      have h5x : (if ss.length > 0 then insertRecipeSteps db.nextId db5 ss
          else Except.ok db5) = Except.ok db6 := h5
      rw [if_pos hlen] at h5x
      obtain ⟨e, he⟩ := insertRecipeSteps_error_of_dup db.nextId ss db5 hdup
      rw [he] at h5x
      cases h5x
  obtain ⟨e, he⟩ := herr
  have hafter : dbAfterCreate db r = db := by
    unfold dbAfterCreate
    rw [he]
  obtain ⟨-, -, -, hrecipes, hrc, hst, hri⟩ := hfresh
  refine ⟨⟨e, he⟩, hafter, ?_, ?_, ?_, ?_⟩ <;> rw [hafter]
  · intro t ht heq
    exact absurd (heq ▸ hrecipes t ht) (Nat.lt_irrefl _)
  · intro t ht heq
    exact absurd (heq ▸ (hrc t ht).2) (Nat.lt_irrefl _)
  · intro t ht heq
    exact absurd (heq ▸ (hst t ht).2) (Nat.lt_irrefl _)
  · intro t ht heq
    exact absurd (heq ▸ (hri t ht).2) (Nat.lt_irrefl _)

/-- Witness for C1: creating on the sample database with two steps both
numbered 1 fails and stores nothing. -/
theorem c1_create_recipe_atomic_witness :
    IdsFresh sampleDb ∧
    (¬ (([{ step_number := 1, instruction := "a" },
         { step_number := 1, instruction := "b" }] : List StepInput).map
         (fun s => s.step_number)).Nodup) ∧
    (∃ e, createRecipe sampleDb
      { name := "Dup", description := "d", author_id := some 1,
        steps := some [{ step_number := 1, instruction := "a" },
                       { step_number := 1, instruction := "b" }] } = .error e) ∧
    dbAfterCreate sampleDb
      { name := "Dup", description := "d", author_id := some 1,
        steps := some [{ step_number := 1, instruction := "a" },
                       { step_number := 1, instruction := "b" }] } = sampleDb := by
  have h := c1_create_recipe_atomic sampleDb
    { name := "Dup", description := "d", author_id := some 1,
      steps := some [{ step_number := 1, instruction := "a" },
                     { step_number := 1, instruction := "b" }] }
    [{ step_number := 1, instruction := "a" }, { step_number := 1, instruction := "b" }]
    (by decide) rfl (by decide)
  exact ⟨by decide, by decide, h.1, h.2.1⟩

/-- The scalar UPDATE of updateRecipe runs only when name or description is
supplied non-empty; with both absent it leaves the state untouched. -/
theorem updateRecipeScalars_none {db : DB} {id userId : Nat} {d : UpdateRecipeInput}
    (hn : d.name = none) (hd : d.description = none) :
    updateRecipeScalars db id d userId = .ok db := by
  unfold updateRecipeScalars
  rw [hn, hd]
  simp [strTruthy]

/-- Inversion of a successful scalar UPDATE: every other table and the
counter keep their value, and the recipes table keeps its identifiers. -/
theorem updateRecipeScalars_ok_elim {db db' : DB} {id userId : Nat} {d : UpdateRecipeInput}
    (h : updateRecipeScalars db id d userId = .ok db') :
    db'.users = db.users ∧ db'.cuisines = db.cuisines ∧ db'.ingredients = db.ingredients ∧
    db'.recipe_cuisines = db.recipe_cuisines ∧ db'.recipe_steps = db.recipe_steps ∧
    db'.recipe_ingredients = db.recipe_ingredients ∧ db'.nextId = db.nextId ∧
    db'.now = db.now ∧
    db'.recipes.map (fun t => t.id) = db.recipes.map (fun t => t.id) := by
  unfold updateRecipeScalars at h
  split_ifs at h with h1 h2
  · cases h
    refine ⟨rfl, rfl, rfl, rfl, rfl, rfl, rfl, rfl, ?_⟩
    rw [List.map_map]
    apply List.map_congr_left
    intro t ht
    by_cases hid : (t.id == id) = true
    · simp [Function.comp, hid]
    · simp [Function.comp, hid]
  · cases h
    exact ⟨rfl, rfl, rfl, rfl, rfl, rfl, rfl, rfl, rfl⟩

/-- Helper: bind of a success computes the continuation. -/
theorem except_ok_bind {α β : Type} (a : α) (f : α → Except SqlError β) :
    ((Except.ok a : Except SqlError α) >>= f) = f a :=
  rfl

/-- Resolution facts of getOrCreateIngredient under the catalog invariants:
the returned identifier resolves to the requested name afterwards, and the
invariants persist. -/
theorem getOrCreateIngredient_lookup {db db1 : DB} {name : String} {iid : Nat}
    (hok : IngredientsOk db) (h : getOrCreateIngredient db name = .ok (iid, db1)) :
    lookupIngredientName db1 iid = some name ∧ IngredientsOk db1 := by
  unfold getOrCreateIngredient at h
  split at h
  · rename_i ing hfind
    cases h
    constructor
    · unfold lookupIngredientName
      rw [find?_key_of_mem (fun t => t.id) hok.1 (List.mem_of_find?_eq_some hfind)]
      have : ing.name = name := by simpa using List.find?_some hfind
      simp [this]
    · exact hok
  · rename_i hfind
    simp only [genId] at h
    split at h
    · rename_i db2 heq
      cases h
      obtain ⟨hdb2, -, -⟩ := insertIngredientRow_ok_elim heq
      subst hdb2
      have hfound : (db.ingredients ++ [({ id := db.nextId, name := name } : IngredientRow)]).find?
          (fun t => t.id == db.nextId) = some { id := db.nextId, name := name } := by
        rw [List.find?_append]
        have hpre : db.ingredients.find? (fun t => t.id == db.nextId) = none := by
          rw [List.find?_eq_none]
          intro t ht hbeq
          have : t.id = db.nextId := by simpa using hbeq
          exact absurd (this ▸ hok.2 t ht) (by omega)
        rw [hpre]
        simp [List.find?]
      refine ⟨?_, ?_, ?_⟩
      · unfold lookupIngredientName
        dsimp only
        rw [hfound]
        rfl
      · dsimp only
        rw [List.map_append, List.nodup_append]
        refine ⟨hok.1, by simp, ?_⟩
        intro i hi
        obtain ⟨t, ht, hti⟩ := List.mem_map.mp hi
        simp only [List.map_cons, List.map_nil, List.mem_cons, List.not_mem_nil, or_false]
        intro hcontra
        exact absurd ((hti.trans hcontra) ▸ hok.2 t ht) (by omega)
      · dsimp only
        intro t ht
        rcases List.mem_append.mp ht with hl | hr
        · exact Nat.lt_succ_of_lt (hok.2 t hl)
        · rw [List.mem_singleton.mp hr]
          exact Nat.lt_succ_self _
    · cases h

/-- Helper: appending to the catalog never changes an already-resolving
lookup. -/
theorem lookupIngredientName_mono {db db' : DB} {iid : Nat} {nm : String}
    (h : lookupIngredientName db iid = some nm)
    (hext : ∃ ext, db'.ingredients = db.ingredients ++ ext) :
    lookupIngredientName db' iid = some nm := by
  obtain ⟨ext, he⟩ := hext
  unfold lookupIngredientName at h ⊢
  rw [he, List.find?_append]
  cases hf : db.ingredients.find? (fun t => t.id == iid) with
  | none => rw [hf] at h; cases h
  | some t =>
    rw [hf] at h
    simpa [Option.or] using h

/-- Exact content added by a successful run of the update-flavoured
ingredient loop: the appended association rows carry the given recipe id
and resolve, in order, to exactly the supplied (name, quantity, unit)
triples. -/
theorem updateRecipeInsertIngredients_exact (rid : Nat) (l : List UpdateIngredientInput) :
    ∀ (db : DB), IngredientsOk db → ∀ (db' : DB),
    updateRecipeInsertIngredients rid db l = .ok db' →
    ∃ rows, db'.recipe_ingredients = db.recipe_ingredients ++ rows ∧
      (∀ t ∈ rows, t.recipe_id = rid) ∧
      rows.map (fun t => (lookupIngredientName db' t.ingredient_id, t.quantity, t.unit))
        = l.map (fun i => (some i.name, i.quantity, i.unit)) := by
  induction l with
  | nil =>
    intro db hok db' h
    unfold updateRecipeInsertIngredients at h
    cases h
    exact ⟨[], by simp, by simp, by simp⟩
  | cons ing rest ih =>
    intro db hok db' h
    unfold updateRecipeInsertIngredients at h
    split at h
    · rename_i e heq
      cases h
    · rename_i iid db1 heq
      rw [getOrCreateIngredientSync] at heq
      obtain ⟨hlook1, hok1⟩ := getOrCreateIngredient_lookup hok heq
      obtain ⟨-, -, -, -, -, b6, -, -, -⟩ := getOrCreateIngredient_ok_elim heq
      simp only [genId] at h
      split at h
      · rename_i db3 heq2
        obtain ⟨hdb3, -⟩ := insertRecipeIngredientRow_ok_elim heq2
        subst hdb3
        obtain ⟨rows', hri', hall', hmap'⟩ := ih { db1 with nextId := db1.nextId + 1, recipe_ingredients := db1.recipe_ingredients ++ [{ id := db1.nextId, recipe_id := rid, ingredient_id := iid, quantity := ing.quantity, unit := ing.unit }] } ⟨hok1.1, fun t ht => Nat.lt_succ_of_lt (hok1.2 t ht)⟩ db' h
        obtain ⟨-, -, -, -, -, -, hext, -, -⟩ :=
          updateRecipeInsertIngredients_frames rid rest _ db' h
        refine ⟨{ id := db1.nextId, recipe_id := rid, ingredient_id := iid,
                  quantity := ing.quantity, unit := ing.unit } :: rows', ?_, ?_, ?_⟩
        · rw [hri']
          show (db1.recipe_ingredients ++ _) ++ rows' = db.recipe_ingredients ++ _
          rw [b6]
          simp [List.append_assoc]
        · intro t ht
          rcases List.mem_cons.mp ht with rfl | hmem
          · rfl
          · exact hall' t hmem
        · rw [List.map_cons, List.map_cons, hmap']
          congr 1
          have hlk : lookupIngredientName db' iid = some ing.name := by
            apply lookupIngredientName_mono hlook1
            obtain ⟨ext, hee⟩ := hext
            exact ⟨ext, hee⟩
          rw [hlk]
      · cases h

/-- Success of the step-insert loop when the supplied numbers are pairwise
distinct, the recipe exists, row identifiers are fresh, and no stored step
of this recipe clashes with the supplied numbers (the delete guarantees
this inside updateRecipe). -/
theorem insertRecipeSteps_ok_of (rid : Nat) (l : List StepInput) :
    ∀ (db : DB),
    (∀ t ∈ db.recipe_steps, t.id < db.nextId) →
    db.recipes.any (fun t => t.id == rid) = true →
    (l.map (fun s => s.step_number)).Nodup →
    (∀ t ∈ db.recipe_steps, t.recipe_id = rid →
      t.step_number ∉ l.map (fun s => s.step_number)) →
    ∃ db', insertRecipeSteps rid db l = .ok db' := by
  induction l with
  | nil =>
    intro db _ _ _ _
    exact ⟨db, rfl⟩
  | cons s rest ih =>
    intro db hids hrec hnodup hfree
    have hc1 : ¬ (({ db with nextId := db.nextId + 1 } : DB).recipe_steps.any
        (fun t => t.id == db.nextId) = true) := by
      dsimp only
      rw [List.any_eq_true]
      rintro ⟨t, ht, hbeq⟩
      have : t.id = db.nextId := by simpa using hbeq
      exact absurd (this ▸ hids t ht) (by omega)
    have hc2 : ¬ ((!(({ db with nextId := db.nextId + 1 } : DB).recipes.any
        (fun t => t.id == rid))) = true) := by
      dsimp only
      rw [hrec]
      simp
    have hc3 : ¬ (({ db with nextId := db.nextId + 1 } : DB).recipe_steps.any
        (fun t => t.recipe_id == rid && t.step_number == s.step_number) = true) := by
      dsimp only
      rw [List.any_eq_true]
      rintro ⟨t, ht, hbeq⟩
      rw [Bool.and_eq_true] at hbeq
      have h1 : t.recipe_id = rid := by simpa using hbeq.1
      have h2 : t.step_number = s.step_number := by simpa using hbeq.2
      exact hfree t ht h1 (by rw [List.map_cons, h2]; exact List.mem_cons_self _ _)
    unfold insertRecipeSteps
    simp only [genId]
    cases hrowc : insertRecipeStepRow { db with nextId := db.nextId + 1 }
        { id := db.nextId, recipe_id := rid, step_number := s.step_number,
          instruction := s.instruction } with
    | error e =>
      exfalso
      unfold insertRecipeStepRow at hrowc
      rw [if_neg hc1, if_neg hc2, if_neg hc3] at hrowc
      cases hrowc
    | ok db2 =>
      obtain ⟨hdb2, -, -⟩ := insertRecipeStepRow_ok_elim hrowc
      subst hdb2
      rw [List.map_cons, List.nodup_cons] at hnodup
      have hA : ∀ t ∈ db.recipe_steps ++ [({ id := db.nextId, recipe_id := rid, step_number := s.step_number, instruction := s.instruction } : RecipeStepRow)], t.id < db.nextId + 1 := by
        intro t ht
        rcases List.mem_append.mp ht with hl | hr
        · exact Nat.lt_succ_of_lt (hids t hl)
        · rw [List.mem_singleton.mp hr]
          exact Nat.lt_succ_self _
      have hB : ∀ t ∈ db.recipe_steps ++ [({ id := db.nextId, recipe_id := rid, step_number := s.step_number, instruction := s.instruction } : RecipeStepRow)], t.recipe_id = rid → t.step_number ∉ rest.map (fun t2 => t2.step_number) := by
        intro t ht htr
        rcases List.mem_append.mp ht with hl | hr
        · intro hmem
          exact hfree t hl htr (by rw [List.map_cons]; exact List.mem_cons_of_mem _ hmem)
        · rw [List.mem_singleton.mp hr]
          exact hnodup.1
      obtain ⟨db', hdone⟩ := ih { db with nextId := db.nextId + 1, recipe_steps := db.recipe_steps ++ [{ id := db.nextId, recipe_id := rid, step_number := s.step_number, instruction := s.instruction }] } hA hrec hnodup.2 hB
      exact ⟨db', hdone⟩

/-- Frame facts of the cuisine block: only recipe_cuisines and the counter
can change. -/
theorem updCuisinesStage_frames {id : Nat} {d : UpdateRecipeInput} {db db' : DB}
    (h : updCuisinesStage id d db = .ok db') :
    db'.users = db.users ∧ db'.cuisines = db.cuisines ∧ db'.ingredients = db.ingredients ∧
    db'.recipes = db.recipes ∧ db'.recipe_steps = db.recipe_steps ∧
    db'.recipe_ingredients = db.recipe_ingredients ∧ db'.now = db.now ∧
    db.nextId ≤ db'.nextId := by
  unfold updCuisinesStage at h
  split at h
  · obtain ⟨a1, a2, a3, a4, a5, a6, a7, a8, a9⟩ := insertRecipeCuisines_ok_spec _ _ _ _ h
    exact ⟨a1, a2, a3, a4, a5, a6, a7, by rw [a9]; exact Nat.le_add_right _ _⟩
  · cases h
    exact ⟨rfl, rfl, rfl, rfl, rfl, rfl, rfl, Nat.le_refl _⟩

/-- Frame facts of the step block: only recipe_steps and the counter can
change. -/
theorem updStepsStage_frames {id : Nat} {d : UpdateRecipeInput} {db db' : DB}
    (h : updStepsStage id d db = .ok db') :
    db'.users = db.users ∧ db'.cuisines = db.cuisines ∧ db'.ingredients = db.ingredients ∧
    db'.recipes = db.recipes ∧ db'.recipe_cuisines = db.recipe_cuisines ∧
    db'.recipe_ingredients = db.recipe_ingredients ∧ db'.now = db.now ∧
    db.nextId ≤ db'.nextId := by
  unfold updStepsStage at h
  split at h
  · obtain ⟨a1, a2, a3, a4, a5, a6, a7, a8, a9⟩ := insertRecipeSteps_ok_spec _ _ _ _ h
    exact ⟨a1, a2, a3, a4, a5, a6, a7, by rw [a9]; exact Nat.le_add_right _ _⟩
  · cases h
    exact ⟨rfl, rfl, rfl, rfl, rfl, rfl, rfl, Nat.le_refl _⟩

/-- Frame facts of the ingredient block: recipes, steps and cuisine
associations are untouched. -/
theorem updIngredientsStage_frames {id : Nat} {d : UpdateRecipeInput} {db db' : DB}
    (h : updIngredientsStage id d db = .ok db') :
    db'.users = db.users ∧ db'.cuisines = db.cuisines ∧ db'.recipes = db.recipes ∧
    db'.recipe_cuisines = db.recipe_cuisines ∧ db'.recipe_steps = db.recipe_steps ∧
    db'.now = db.now := by
  unfold updIngredientsStage at h
  split at h
  · obtain ⟨a1, a2, a3, a4, a5, a6, -, -, -⟩ := updateRecipeInsertIngredients_frames _ _ _ _ h
    exact ⟨a1, a2, a3, a4, a5, a6⟩
  · cases h
    exact ⟨rfl, rfl, rfl, rfl, rfl, rfl⟩

/-- C9: an updateRecipe call supplying neither name nor description leaves
the recipes table itself completely unchanged (no updated_at or updated_by
stamp), no matter which sub-collections it replaces, and whether or not
the transaction commits. -/
theorem c9_update_without_scalars_preserves_recipe_row (db : DB) (id : Nat)
    (d : UpdateRecipeInput) (userId : Nat)
    (hn : d.name = none) (hd : d.description = none) :
    (dbAfterUpdate db id d userId).recipes = db.recipes := by
  unfold dbAfterUpdate
  cases hu : updateRecipe db id d userId with
  | error e => rfl
  | ok db' =>
    unfold updateRecipe at hu
    rw [updateRecipeScalars_none hn hd] at hu
    have hu2 : (updCuisinesStage id d db >>= fun db2 =>
        updStepsStage id d db2 >>= fun db3 => updIngredientsStage id d db3) = .ok db' := by
      rw [← hu]
      rfl
    obtain ⟨db2, h2, hrest⟩ := except_bind_ok hu2
    obtain ⟨db3, h3, h4⟩ := except_bind_ok hrest
    calc db'.recipes = db3.recipes := (updIngredientsStage_frames h4).2.2.1
      _ = db2.recipes := (updStepsStage_frames h3).2.2.2.1
      _ = db.recipes := (updCuisinesStage_frames h2).2.2.2.1

/-- Witness for C9: replacing the steps of the sample recipe without
touching name or description leaves the recipes table unchanged. -/
theorem c9_update_without_scalars_preserves_recipe_row_witness :
    (dbAfterUpdate sampleDb 10
      { steps := some [{ step_number := 7, instruction := "Chill" }] } 1).recipes
      = sampleDb.recipes :=
  c9_update_without_scalars_preserves_recipe_row sampleDb 10
    { steps := some [{ step_number := 7, instruction := "Chill" }] } 1 rfl rfl

/-- Generated step rows all carry the requested recipe id. -/
theorem stepRows_recipe_id (rid : Nat) : ∀ (n : Nat) (l : List StepInput),
    ∀ t ∈ stepRows rid n l, t.recipe_id = rid := by
  intro n l
  induction l generalizing n with
  | nil => intro t ht; cases ht
  | cons s rest ih =>
    intro t ht
    rcases List.mem_cons.mp ht with rfl | hmem
    · rfl
    · exact ih (n + 1) t hmem

/-- Generated step rows carry exactly the supplied data, in order. -/
theorem stepRows_map_pair (rid : Nat) : ∀ (n : Nat) (l : List StepInput),
    (stepRows rid n l).map (fun t => (t.step_number, t.instruction))
      = l.map (fun s => (s.step_number, s.instruction)) := by
  intro n l
  induction l generalizing n with
  | nil => rfl
  | cons s rest ih => simp [stepRows, ih (n + 1)]

/-- Generated cuisine association rows all carry the requested recipe id. -/
theorem cuisineRows_recipe_id (rid : Nat) : ∀ (n : Nat) (l : List Nat),
    ∀ t ∈ cuisineRows rid n l, t.recipe_id = rid := by
  intro n l
  induction l generalizing n with
  | nil => intro t ht; cases ht
  | cons c rest ih =>
    intro t ht
    rcases List.mem_cons.mp ht with rfl | hmem
    · rfl
    · exact ih (n + 1) t hmem

/-- Generated cuisine association rows carry exactly the supplied cuisine
ids, in order. -/
theorem cuisineRows_map_id (rid : Nat) : ∀ (n : Nat) (l : List Nat),
    (cuisineRows rid n l).map (fun t => t.cuisine_id) = l := by
  intro n l
  induction l generalizing n with
  | nil => rfl
  | cons c rest ih => simp [cuisineRows, ih (n + 1)]

/-- Helper: rows surviving the delete of one recipe never resurface under
that recipe id. -/
theorem filter_of_deleted_eq_nil {α : Type} (f : α → Nat) (id : Nat) (l : List α) :
    (l.filter (fun t => !(f t == id))).filter (fun t => f t == id) = [] := by
  rw [List.filter_eq_nil_iff]
  intro a ha
  simpa using (List.mem_filter.mp ha).2

/-- Helper: getRecipeById is not-found exactly when no recipe row has the
identifier. -/
theorem getRecipeById_eq_none_iff (db : DB) (id : Nat) :
    getRecipeById db id = none ↔ db.recipes.find? (fun t => t.id == id) = none := by
  unfold getRecipeById
  cases h : db.recipes.find? (fun t => t.id == id) <;> simp [h]

/-- C5: after archiveRecipe(id), getRecipeById(id) is not-found, the three
child tables hold no row referencing id (the cascade removed them), and the
shared ingredients and cuisines tables are untouched. -/
theorem c5_archive_cascades (db : DB) (id : Nat) (hfk : ChildFksOk db) :
    getRecipeById (archiveRecipe db id) id = none ∧
    (∀ t ∈ (archiveRecipe db id).recipe_cuisines, t.recipe_id ≠ id) ∧
    (∀ t ∈ (archiveRecipe db id).recipe_steps, t.recipe_id ≠ id) ∧
    (∀ t ∈ (archiveRecipe db id).recipe_ingredients, t.recipe_id ≠ id) ∧
    (archiveRecipe db id).ingredients = db.ingredients ∧
    (archiveRecipe db id).cuisines = db.cuisines := by
  obtain ⟨hrc, hst, hri⟩ := hfk
  by_cases hex : db.recipes.any (fun t => t.id == id) = true
  · have harch : archiveRecipe db id =
        { db with
          recipes := db.recipes.filter (fun t => !(t.id == id)),
          recipe_cuisines := db.recipe_cuisines.filter (fun t => !(t.recipe_id == id)),
          recipe_steps := db.recipe_steps.filter (fun t => !(t.recipe_id == id)),
          recipe_ingredients := db.recipe_ingredients.filter (fun t => !(t.recipe_id == id)) } := by
      unfold archiveRecipe
      rw [if_pos hex]
    rw [harch]
    refine ⟨?_, ?_, ?_, ?_, rfl, rfl⟩
    · rw [getRecipeById_eq_none_iff]
      exact find?_filter_ne (fun t => t.id) id db.recipes
    · intro t ht
      rw [List.mem_filter] at ht
      simpa using ht.2
    · intro t ht
      rw [List.mem_filter] at ht
      simpa using ht.2
    · intro t ht
      rw [List.mem_filter] at ht
      simpa using ht.2
  · have harch : archiveRecipe db id = db := by
      unfold archiveRecipe
      rw [if_neg hex]
    have hno : ∀ r ∈ db.recipes, r.id ≠ id := by
      intro r hr heq
      exact hex (List.any_eq_true.mpr ⟨r, hr, by simpa using heq⟩)
    rw [harch]
    refine ⟨?_, ?_, ?_, ?_, rfl, rfl⟩
    · rw [getRecipeById_eq_none_iff, List.find?_eq_none]
      intro x hx
      simpa using hno x hx
    · intro t ht heq
      obtain ⟨r, hr, hrid⟩ := hrc t ht
      exact hno r hr (hrid.trans heq)
    · intro t ht heq
      obtain ⟨r, hr, hrid⟩ := hst t ht
      exact hno r hr (hrid.trans heq)
    · intro t ht heq
      obtain ⟨r, hr, hrid⟩ := hri t ht
      exact hno r hr (hrid.trans heq)

/-- Witness for C5 at the sample database. -/
theorem c5_archive_cascades_witness :
    ChildFksOk sampleDb ∧ getRecipeById (archiveRecipe sampleDb 10) 10 = none :=
  ⟨by decide, (c5_archive_cascades sampleDb 10 (by decide)).1⟩

/-- C10: deleting a cuisine that some recipe still references fails with a
foreign-key violation and changes nothing; deleting an unreferenced
cuisine removes exactly its row. -/
theorem c10_delete_cuisine_guarded (db : DB) (id : Nat) (hfk : CuisineFkOk db) :
    ((∃ rc ∈ db.recipe_cuisines, rc.cuisine_id = id) →
      deleteCuisine db id = .error .constraintForeignKey ∧ dbAfterDeleteCuisine db id = db) ∧
    ((∀ rc ∈ db.recipe_cuisines, rc.cuisine_id ≠ id) →
      deleteCuisine db id =
        .ok { db with cuisines := db.cuisines.filter (fun t => !(t.id == id)) }) := by
  constructor
  · rintro ⟨rc, hm, hcid⟩
    obtain ⟨c, hc, hcidc⟩ := hfk rc hm
    have hcond : (db.cuisines.any (fun t => t.id == id)
        && db.recipe_cuisines.any (fun t => t.cuisine_id == id)) = true := by
      rw [Bool.and_eq_true]
      constructor
      · exact List.any_eq_true.mpr ⟨c, hc, by simp [hcidc, hcid]⟩
      · exact List.any_eq_true.mpr ⟨rc, hm, by simp [hcid]⟩
    have hdel : deleteCuisine db id = .error .constraintForeignKey := by
      unfold deleteCuisine
      rw [if_pos hcond]
    refine ⟨hdel, ?_⟩
    unfold dbAfterDeleteCuisine
    rw [hdel]
  · intro hnone
    have hcond : ¬ ((db.cuisines.any (fun t => t.id == id)
        && db.recipe_cuisines.any (fun t => t.cuisine_id == id)) = true) := by
      rw [Bool.and_eq_true]
      rintro ⟨-, hany⟩
      obtain ⟨rc, hm, hrc⟩ := List.any_eq_true.mp hany
      exact hnone rc hm (by simpa using hrc)
    unfold deleteCuisine
    rw [if_neg hcond]

/-- Witness for C10 at the sample database: cuisine 2 is referenced by
recipe 10, so deleting it fails; cuisine 3 is unreferenced, so deleting it
removes exactly its row. -/
theorem c10_delete_cuisine_guarded_witness :
    CuisineFkOk sampleDb ∧
    deleteCuisine sampleDb 2 = .error .constraintForeignKey ∧
    deleteCuisine sampleDb 3 =
      .ok { sampleDb with cuisines := sampleDb.cuisines.filter (fun t => !(t.id == 3)) } :=
  ⟨by decide,
   ((c10_delete_cuisine_guarded sampleDb 2 (by decide)).1 ⟨{ id := 11, recipe_id := 10, cuisine_id := 2 }, by decide, rfl⟩).1,
   (c10_delete_cuisine_guarded sampleDb 3 (by decide)).2 (by decide)⟩

/-- Deleted step rows of a recipe cannot pass a filter for that recipe. -/
theorem steps_filter_deleted (id : Nat) (l : List RecipeStepRow) :
    (l.filter (fun t => !(t.recipe_id == id))).filter (fun t => t.recipe_id == id) = [] := by
  rw [List.filter_eq_nil_iff]
  intro a ha
  simpa using (List.mem_filter.mp ha).2

/-- Deleted cuisine association rows of a recipe cannot pass a filter for
that recipe. -/
theorem rc_filter_deleted (id : Nat) (l : List RecipeCuisineRow) :
    (l.filter (fun t => !(t.recipe_id == id))).filter (fun t => t.recipe_id == id) = [] := by
  rw [List.filter_eq_nil_iff]
  intro a ha
  simpa using (List.mem_filter.mp ha).2

/-- Deleted ingredient association rows of a recipe cannot pass a filter
for that recipe. -/
theorem ri_filter_deleted (id : Nat) (l : List RecipeIngredientRow) :
    (l.filter (fun t => !(t.recipe_id == id))).filter (fun t => t.recipe_id == id) = [] := by
  rw [List.filter_eq_nil_iff]
  intro a ha
  simpa using (List.mem_filter.mp ha).2

/-- Wholesale step replacement: any successful updateRecipe call that
supplied a steps list leaves the recipe with exactly that list. -/
theorem updateRecipe_steps_exact (db : DB) (id : Nat) (d : UpdateRecipeInput) (userId : Nat)
    (db' : DB) (ss : List StepInput)
    (hu : updateRecipe db id d userId = .ok db') (hss : d.steps = some ss) :
    stepsDataOf db' id = ss.map (fun s => (s.step_number, s.instruction)) := by
  unfold updateRecipe at hu
  obtain ⟨db1, h1, hu2⟩ := except_bind_ok hu
  obtain ⟨db2, h2, hu3⟩ := except_bind_ok hu2
  obtain ⟨db3, h3, h4⟩ := except_bind_ok hu3
  unfold updStepsStage at h3
  rw [hss] at h3
  have h3x : insertRecipeSteps id
      { db2 with recipe_steps := db2.recipe_steps.filter (fun t => !(t.recipe_id == id)) } ss
      = .ok db3 := h3
  obtain ⟨-, -, -, -, -, -, -, hsteps3, -⟩ := insertRecipeSteps_ok_spec id ss _ db3 h3x
  have hfr : db'.recipe_steps = db3.recipe_steps := (updIngredientsStage_frames h4).2.2.2.2.1
  unfold stepsDataOf
  rw [hfr, hsteps3]
  have hself : (stepRows id db2.nextId ss).filter (fun t => t.recipe_id == id)
      = stepRows id db2.nextId ss :=
    List.filter_eq_self.mpr (fun t ht => by simp [stepRows_recipe_id id db2.nextId ss t ht])
  rw [List.filter_append, steps_filter_deleted, hself, List.nil_append]
  exact stepRows_map_pair id db2.nextId ss

/-- Wholesale cuisine replacement: any successful updateRecipe call that
supplied a cuisine list leaves the recipe associated with exactly that
list. -/
theorem updateRecipe_cuisines_exact (db : DB) (id : Nat) (d : UpdateRecipeInput) (userId : Nat)
    (db' : DB) (cs : List Nat)
    (hu : updateRecipe db id d userId = .ok db') (hcs : d.cuisines = some cs) :
    cuisineIdsOf db' id = cs := by
  unfold updateRecipe at hu
  obtain ⟨db1, h1, hu2⟩ := except_bind_ok hu
  obtain ⟨db2, h2, hu3⟩ := except_bind_ok hu2
  obtain ⟨db3, h3, h4⟩ := except_bind_ok hu3
  unfold updCuisinesStage at h2
  rw [hcs] at h2
  have h2x : insertRecipeCuisines id
      { db1 with recipe_cuisines := db1.recipe_cuisines.filter (fun t => !(t.recipe_id == id)) }
      cs = .ok db2 := h2
  obtain ⟨-, -, -, -, -, -, -, hrc2, -⟩ := insertRecipeCuisines_ok_spec id cs _ db2 h2x
  have hfr3 : db3.recipe_cuisines = db2.recipe_cuisines := (updStepsStage_frames h3).2.2.2.2.1
  have hfr4 : db'.recipe_cuisines = db3.recipe_cuisines := (updIngredientsStage_frames h4).2.2.2.1
  unfold cuisineIdsOf
  rw [hfr4, hfr3, hrc2]
  have hself : (cuisineRows id db1.nextId cs).filter (fun t => t.recipe_id == id)
      = cuisineRows id db1.nextId cs :=
    List.filter_eq_self.mpr (fun t ht => by simp [cuisineRows_recipe_id id db1.nextId cs t ht])
  rw [List.filter_append, rc_filter_deleted, hself, List.nil_append]
  exact cuisineRows_map_id id db1.nextId cs

/-- Wholesale ingredient replacement: any successful updateRecipe call that
supplied an ingredient list leaves the recipe with association rows that
resolve to exactly the supplied (name, quantity, unit) triples. -/
theorem updateRecipe_ingredients_exact (db : DB) (id : Nat) (d : UpdateRecipeInput)
    (userId : Nat) (db' : DB) (ings : List UpdateIngredientInput)
    (hok : IngredientsOk db)
    (hu : updateRecipe db id d userId = .ok db') (hings : d.ingredients = some ings) :
    ingredientDataOf db' id = ings.map (fun i => (some i.name, i.quantity, i.unit)) := by
  unfold updateRecipe at hu
  obtain ⟨db1, h1, hu2⟩ := except_bind_ok hu
  obtain ⟨db2, h2, hu3⟩ := except_bind_ok hu2
  obtain ⟨db3, h3, h4⟩ := except_bind_ok hu3
  obtain ⟨-, -, e3, -, -, -, e7, -, -⟩ := updateRecipeScalars_ok_elim h1
  have hok1 : IngredientsOk db1 := by
    constructor
    · rw [e3]
      exact hok.1
    · intro t ht
      rw [e3] at ht
      rw [e7]
      exact hok.2 t ht
  obtain ⟨-, -, f3, -, -, -, -, f8⟩ := updCuisinesStage_frames h2
  have hok2 : IngredientsOk db2 := by
    constructor
    · rw [f3]
      exact hok1.1
    · intro t ht
      rw [f3] at ht
      exact Nat.lt_of_lt_of_le (hok1.2 t ht) f8
  obtain ⟨-, -, g3, -, -, -, -, g8⟩ := updStepsStage_frames h3
  have hok3 : IngredientsOk db3 := by
    constructor
    · rw [g3]
      exact hok2.1
    · intro t ht
      rw [g3] at ht
      exact Nat.lt_of_lt_of_le (hok2.2 t ht) g8
  unfold updIngredientsStage at h4
  rw [hings] at h4
  have h4x : updateRecipeInsertIngredients id
      { db3 with
        recipe_ingredients := db3.recipe_ingredients.filter (fun t => !(t.recipe_id == id)) }
      ings = .ok db' := h4
  obtain ⟨rows, hri, hall, hmap⟩ := updateRecipeInsertIngredients_exact id ings
    { db3 with
      recipe_ingredients := db3.recipe_ingredients.filter (fun t => !(t.recipe_id == id)) }
    ⟨hok3.1, hok3.2⟩ db' h4x
  unfold ingredientDataOf
  rw [hri]
  show ((db3.recipe_ingredients.filter (fun t => !(t.recipe_id == id)) ++ rows).filter
    (fun t => t.recipe_id == id)).map _ = _
  have hself : rows.filter (fun t => t.recipe_id == id) = rows :=
    List.filter_eq_self.mpr (fun t ht => by simp [hall t ht])
  rw [List.filter_append, ri_filter_deleted, hself, List.nil_append]
  exact hmap

/-- Retrievability of replaced steps: after a successful steps update of an
existing recipe, getRecipeById returns exactly the supplied step data,
ordered by step number. -/
theorem updateRecipe_steps_retrievable (db : DB) (id : Nat) (d : UpdateRecipeInput)
    (userId : Nat) (db' : DB) (ss : List StepInput)
    (hu : updateRecipe db id d userId = .ok db') (hss : d.steps = some ss)
    (hex : ∃ rec ∈ db.recipes, rec.id = id) :
    ∃ agg, getRecipeById db' id = some agg ∧
      (agg.steps.map (fun s => (s.step_number, s.instruction))).Perm
        (ss.map (fun s => (s.step_number, s.instruction))) ∧
      agg.steps.Pairwise (fun a b => a.step_number ≤ b.step_number) := by
  have hsd := updateRecipe_steps_exact db id d userId db' ss hu hss
  have hpres : db'.recipes.map (fun t => t.id) = db.recipes.map (fun t => t.id) := by
    unfold updateRecipe at hu
    obtain ⟨db1, h1, hu2⟩ := except_bind_ok hu
    obtain ⟨db2, h2, hu3⟩ := except_bind_ok hu2
    obtain ⟨db3, h3, h4⟩ := except_bind_ok hu3
    rw [(updIngredientsStage_frames h4).2.2.1, (updStepsStage_frames h3).2.2.2.1,
      (updCuisinesStage_frames h2).2.2.2.1]
    exact (updateRecipeScalars_ok_elim h1).2.2.2.2.2.2.2.2
  obtain ⟨rec, hrec, hrecid⟩ := hex
  have hmem : id ∈ db'.recipes.map (fun t => t.id) := by
    rw [hpres]
    exact List.mem_map.mpr ⟨rec, hrec, hrecid⟩
  obtain ⟨row, hrow, hrowid⟩ := List.mem_map.mp hmem
  cases hf : db'.recipes.find? (fun t => t.id == id) with
  | none =>
    exact absurd (List.find?_eq_none.mp hf row hrow (by simp [hrowid])) (by simp)
  | some r0 =>
    have htrans : ∀ (a b c : RecipeStepRow),
        Nat.ble a.step_number b.step_number = true →
        Nat.ble b.step_number c.step_number = true →
        Nat.ble a.step_number c.step_number = true := by
      intro a b c hab hbc
      simp only [Nat.ble_eq] at *
      omega
    have htotal : ∀ (a b : RecipeStepRow),
        (Nat.ble a.step_number b.step_number || Nat.ble b.step_number a.step_number) = true := by
      intro a b
      rw [Bool.or_eq_true]
      simp only [Nat.ble_eq]
      omega
    refine ⟨_, by unfold getRecipeById; rw [hf], ?_, ?_⟩
    · have hperm := ((db'.recipe_steps.filter (fun t => t.recipe_id == id)).mergeSort_perm
        (fun a b => Nat.ble a.step_number b.step_number)).map
        (fun s => (s.step_number, s.instruction))
      unfold stepsDataOf at hsd
      rw [hsd] at hperm
      exact hperm
    · have hsorted := List.sorted_mergeSort htrans htotal
        (db'.recipe_steps.filter (fun t => t.recipe_id == id))
      exact hsorted.imp (fun hab => by simpa [Nat.ble_eq] using hab)

/-- Success of a steps-only update: with pairwise-distinct step numbers,
fresh row identifiers and an existing recipe, updateRecipe commits. -/
theorem updateRecipe_steps_only_succeeds (db : DB) (id : Nat) (ss : List StepInput)
    (userId : Nat)
    (hids : ∀ t ∈ db.recipe_steps, t.id < db.nextId)
    (hex : ∃ rec ∈ db.recipes, rec.id = id)
    (hnodup : (ss.map (fun s => s.step_number)).Nodup) :
    ∃ db', updateRecipe db id
      { name := none, description := none, cuisines := none, ingredients := none,
        steps := some ss } userId = .ok db' := by
  obtain ⟨rec, hrec, hrecid⟩ := hex
  have hrec2 : ({ db with
      recipe_steps := db.recipe_steps.filter (fun t => !(t.recipe_id == id)) } : DB).recipes.any
      (fun t => t.id == id) = true :=
    List.any_eq_true.mpr ⟨rec, hrec, by simp [hrecid]⟩
  obtain ⟨dbS, hS⟩ := insertRecipeSteps_ok_of id ss
    { db with recipe_steps := db.recipe_steps.filter (fun t => !(t.recipe_id == id)) }
    (fun t ht => hids t (List.mem_of_mem_filter ht))
    hrec2
    hnodup
    (fun t ht htr => absurd (by simp [htr] : (!(t.recipe_id == id)) = false)
      (by simp [(List.mem_filter.mp ht).2]))
  refine ⟨dbS, ?_⟩
  unfold updateRecipe
  rw [updateRecipeScalars_none rfl rfl]
  simp only [except_ok_bind]
  have hcu : updCuisinesStage id
      { name := none, description := none, cuisines := none, ingredients := none,
        steps := some ss } db = .ok db := rfl
  rw [hcu]
  simp only [except_ok_bind]
  have hst2 : updStepsStage id
      { name := none, description := none, cuisines := none, ingredients := none,
        steps := some ss } db = .ok dbS := hS
  rw [hst2]
  simp only [except_ok_bind]
  rfl

/-- C3 counterexample: on the sample database (recipe 10 stores the single
step (1, Boil)), updating with a steps list that repeats step number 1
does not install the supplied list — the transaction fails and the old
step list is still what getRecipeById returns. -/
theorem c3_counterexample :
    updateRecipe sampleDb 10
      { steps := some [{ step_number := 1, instruction := "x" },
                       { step_number := 1, instruction := "y" }] } 1
      = .error .constraintUnique ∧
    stepsDataOf (dbAfterUpdate sampleDb 10
      { steps := some [{ step_number := 1, instruction := "x" },
                       { step_number := 1, instruction := "y" }] } 1) 10
      = [(1, "Boil")] := by
  decide

/-- C3 (amended): whenever updateRecipe commits, a supplied steps list is
installed wholesale (the stored step data is exactly the supplied list),
and likewise for supplied cuisines and ingredients; getRecipeById then
returns exactly the new steps ordered by step number; and a steps-only
update with pairwise-distinct step numbers does commit. The amendment
excludes supplied lists that violate the table constraints (for example a
repeated step number), on which the transaction rolls back. -/
theorem c3_update_wholesale_replace :
    (∀ (db : DB) (id : Nat) (d : UpdateRecipeInput) (userId : Nat) (db' : DB)
        (ss : List StepInput),
      updateRecipe db id d userId = .ok db' → d.steps = some ss →
      stepsDataOf db' id = ss.map (fun s => (s.step_number, s.instruction))) ∧
    (∀ (db : DB) (id : Nat) (d : UpdateRecipeInput) (userId : Nat) (db' : DB) (cs : List Nat),
      updateRecipe db id d userId = .ok db' → d.cuisines = some cs →
      cuisineIdsOf db' id = cs) ∧
    (∀ (db : DB) (id : Nat) (d : UpdateRecipeInput) (userId : Nat) (db' : DB)
        (ings : List UpdateIngredientInput),
      IngredientsOk db → updateRecipe db id d userId = .ok db' → d.ingredients = some ings →
      ingredientDataOf db' id = ings.map (fun i => (some i.name, i.quantity, i.unit))) ∧
    (∀ (db : DB) (id : Nat) (d : UpdateRecipeInput) (userId : Nat) (db' : DB)
        (ss : List StepInput),
      updateRecipe db id d userId = .ok db' → d.steps = some ss →
      (∃ rec ∈ db.recipes, rec.id = id) →
      ∃ agg, getRecipeById db' id = some agg ∧
        (agg.steps.map (fun s => (s.step_number, s.instruction))).Perm
          (ss.map (fun s => (s.step_number, s.instruction))) ∧
        agg.steps.Pairwise (fun a b => a.step_number ≤ b.step_number)) ∧
    (∀ (db : DB) (id : Nat) (ss : List StepInput) (userId : Nat),
      (∀ t ∈ db.recipe_steps, t.id < db.nextId) →
      (∃ rec ∈ db.recipes, rec.id = id) →
      (ss.map (fun s => s.step_number)).Nodup →
      ∃ db', updateRecipe db id
        { name := none, description := none, cuisines := none, ingredients := none,
          steps := some ss } userId = .ok db') :=
  ⟨updateRecipe_steps_exact, updateRecipe_cuisines_exact, updateRecipe_ingredients_exact,
    updateRecipe_steps_retrievable, updateRecipe_steps_only_succeeds⟩

/-- Witness for C3: a steps-only update of the sample recipe with distinct
step numbers commits. -/
theorem c3_update_wholesale_replace_witness :
    (∀ t ∈ sampleDb.recipe_steps, t.id < sampleDb.nextId) ∧
    (∃ rec ∈ sampleDb.recipes, rec.id = 10) ∧
    (([{ step_number := 1, instruction := "Chop" },
       { step_number := 2, instruction := "Fry" }] : List StepInput).map
       (fun s => s.step_number)).Nodup ∧
    ∃ db', updateRecipe sampleDb 10
      { name := none, description := none, cuisines := none, ingredients := none,
        steps := some [{ step_number := 1, instruction := "Chop" },
                       { step_number := 2, instruction := "Fry" }] } 1 = .ok db' :=
  ⟨by decide, by decide,
    by decide,
    c3_update_wholesale_replace.2.2.2.2 sampleDb 10
      [{ step_number := 1, instruction := "Chop" }, { step_number := 2, instruction := "Fry" }]
      1 (by decide) (by decide) (by decide)⟩

end RecipesDB
